import Mathlib

/-!
# CPU topology and cpu_power tables of arch/arm/kernel/topology.c

A shallow embedding of the topology table, the sibling-mask routines, the
policy change detector and the device-tree capacity resolver, and of the
handler list of arch/arm/mach-sc/psfreq.c, followed by theorems about them.

Conventions of the embedding
* `unsigned int` and `unsigned long` are 32 bits wide (arch/arm); values are
  `Nat` and every operation that can wrap is reduced modulo `2 ^ 32`.
* `int` fields of `struct cputopo_arm` are `Int`.
* a `cpumask_t` is the finite set of CPU numbers whose bit is set.
* `for_each_possible_cpu` visits, in ascending order, the CPU numbers below
  `nr_cpu_ids` whose bit is set in `cpu_possible_mask`.
* the array `cpu_topology[NR_CPUS]` is a list of `NR_CPUS` entries; the
  theorems about it assume `nr_cpu_ids <= NR_CPUS`, so that every possible CPU
  has an entry.
* the hardware registers read by `read_cpuid_mpidr()` and `read_cpuid_id()`,
  the global flags `sched_mc_power_savings` and `sched_smt_power_savings`, the
  outcome of `kzalloc` and the cpu nodes of the device tree are inputs.
* a NULL dereference, an access past the end of the `cpu_capacity` array and a
  division by zero are faults: the function returns `none`.
-/

namespace Topology

/-! ## Constants -/

/-- The constant `ARM_FAMILY_MASK` (topology.c line 35). -/
def ARM_FAMILY_MASK : Nat := 0xFF0FFFF0

/-- The constant `ARM_CORTEX_A9_FAMILY` (topology.c line 376). -/
def ARM_CORTEX_A9_FAMILY : Nat := 0x410FC090

/-- Modelled from the spec: `SCHED_POWER_SHIFT` of linux/sched.h is not part of
the sources; the baseline capacity `SCHED_POWER_SCALE` is `1 << 10`. -/
def SCHED_POWER_SHIFT : Nat := 10

/-- Modelled from the spec: `SCHED_POWER_SCALE` of linux/sched.h, the baseline
capacity (1.5 x baseline = 1536). -/
def SCHED_POWER_SCALE : Nat := 1 <<< SCHED_POWER_SHIFT

/-- Modelled from the spec: `POWERSAVINGS_BALANCE_NONE` of linux/sched.h, the
value of a power-saving flag that is switched off. -/
def POWERSAVINGS_BALANCE_NONE : Nat := 0

/-- Modelled from the spec: `MPIDR_SMP_BITMASK` of asm/cputype.h, the two bits
that tell whether the multiprocessor layout is present. -/
def MPIDR_SMP_BITMASK : Nat := 0xC0000000

/-- Modelled from the spec: `MPIDR_SMP_VALUE` of asm/cputype.h. -/
def MPIDR_SMP_VALUE : Nat := 0x80000000

/-- Modelled from the spec: `MPIDR_MT_BITMASK` of asm/cputype.h, bit 24. -/
def MPIDR_MT_BITMASK : Nat := 0x1000000

/-- Modelled from the spec: the macro `MPIDR_AFFINITY_LEVEL` of asm/cputype.h,
`(mpidr >> (8 * level)) & 0xFF`. -/
def MPIDR_AFFINITY_LEVEL (mpidr level : Nat) : Nat := (mpidr >>> (8 * level)) &&& 0xFF

/-- The value `(unsigned long)(-1)`. -/
def ULONG_MINUS_ONE : Nat := 2 ^ 32 - 1

/-! ## Data model -/

/-- The CPU masks of the system: `nr_cpu_ids` and `cpu_possible_mask`. -/
structure Config where
  nr_cpu_ids : Nat
  cpu_possible : Nat → Bool

/-- The CPUs visited by `for_each_possible_cpu`, in visiting order. -/
def possible_cpus (cfg : Config) : List Nat :=
  (List.range cfg.nr_cpu_ids).filter cfg.cpu_possible

/-- The kernel helper `num_possible_cpus()`: the weight of `cpu_possible_mask`. -/
def num_possible_cpus (cfg : Config) : Nat := (possible_cpus cfg).length

/-- The record `struct cputopo_arm` (its declaration in asm/topology.h is not
part of the sources: the fields are the ones topology.c reads and writes; the
four identity fields are of type `int`). -/
structure cputopo_arm where
  id : Int
  thread_id : Int
  core_id : Int
  socket_id : Int
  thread_sibling : Finset Nat
  core_sibling : Finset Nat

/-- The record `struct cpu_efficiency`. -/
structure cpu_efficiency where
  compatible : String
  efficiency : Nat

/-- The table `table_efficiency[]`, without its NULL terminator. -/
def table_efficiency : List cpu_efficiency :=
  [⟨"arm,cortex-a15", 3891⟩, ⟨"arm,cortex-a7", 2048⟩]

/-- The record `struct cpu_capacity`. -/
structure cpu_capacity where
  hwid : Nat
  capacity : Nat

/-- A device-tree property as `of_get_property` hands it out: its length in
bytes and the value `be32_to_cpup` reads at its start. -/
structure of_property where
  len : Nat
  be32 : Nat

/-- A device-tree node of type cpu, as seen through `of_device_is_compatible`
and `of_get_property`. -/
structure device_node where
  is_compatible : String → Bool
  clock_frequency : Option of_property
  reg : Option of_property

/-- The global variables of topology.c, plus the trace of the calls of
`atomic_notifier_call_chain` (the value passed to the observers). -/
structure KState where
  cpu_scale : Nat → Nat
  cpu_capacity : Option (List cpu_capacity)
  middle_capacity : Nat
  cpu_topology : List cputopo_arm
  prev_sched_mc_power_savings : Nat
  prev_sched_smt_power_savings : Nat
  notifier_calls : List Nat

/-! ## cpu power scale management -/

/-- The accessor `arch_scale_freq_power`. -/
def arch_scale_freq_power (s : KState) (cpu : Nat) : Nat := s.cpu_scale cpu

/-- The setter `set_power_scale`. -/
def set_power_scale (cpu power : Nat) (s : KState) : KState :=
  { s with cpu_scale := Function.update s.cpu_scale cpu power }

/-- The result of `of_get_property` followed by the test `!p || len != 4`:
the 32-bit value when the property is there with length 4. -/
def get_u32_property (p : Option of_property) : Option Nat :=
  match p with
  | none => none
  | some q => if q.len ≠ 4 then none else some (q.be32 % 2 ^ 32)

/-- The inner loop of `parse_dt_topology` over `table_efficiency`: the first
entry the node is compatible with. -/
def find_efficiency (cn : device_node) : Option cpu_efficiency :=
  table_efficiency.find? (fun e => cn.is_compatible e.compatible)

/-- The local variables of `parse_dt_topology` that live across iterations,
with the `cpu_capacity` array. -/
structure ParseState where
  cpu : Nat
  min_capacity : Nat
  max_capacity : Nat
  table : Option (List cpu_capacity)

/-- A store to `cpu_capacity[idx].capacity`. -/
def write_capacity (table : Option (List cpu_capacity)) (idx v : Nat) :
    Option (List cpu_capacity) :=
  match table with
  | none => none
  | some l =>
    match l.get? idx with
    | none => none
    | some e => some (l.set idx { e with capacity := v })

/-- A store to `cpu_capacity[idx].hwid`. -/
def write_hwid (table : Option (List cpu_capacity)) (idx v : Nat) :
    Option (List cpu_capacity) :=
  match table with
  | none => none
  | some l =>
    match l.get? idx with
    | none => none
    | some e => some (l.set idx { e with hwid := v })

/-- The while loop of `parse_dt_topology` (lines 115-154) over the cpu nodes
still to visit. -/
def parse_dt_loop (npos : Nat) : List device_node → ParseState → Option ParseState
  | [], st => some st
  | cn :: rest, st =>
    if st.cpu ≥ npos then some st
    else
      match find_efficiency cn with
      | none => parse_dt_loop npos rest st
      | some cpu_eff =>
        match get_u32_property cn.clock_frequency with
        | none => parse_dt_loop npos rest st
        | some rate =>
          match get_u32_property cn.reg with
          | none => parse_dt_loop npos rest st
          | some reg =>
            let capacity := ((rate >>> 20) * cpu_eff.efficiency) % 2 ^ 32
            let min_capacity := if capacity < st.min_capacity then capacity else st.min_capacity
            let max_capacity := if capacity > st.max_capacity then capacity else st.max_capacity
            match write_capacity st.table st.cpu capacity with
            | none => none
            | some t1 =>
              match write_hwid (some t1) st.cpu reg with
              | none => none
              | some t2 =>
                parse_dt_loop npos rest
                  { cpu := st.cpu + 1, min_capacity := min_capacity,
                    max_capacity := max_capacity, table := some t2 }

/-- The function `parse_dt_topology`; `alloc_ok` tells whether `kzalloc`
returned the zeroed array of `nr_cpu_ids` entries or NULL. -/
def parse_dt_topology (cfg : Config) (alloc_ok : Bool) (nodes : List device_node)
    (s : KState) : Option KState :=
  let table0 : Option (List cpu_capacity) :=
    if alloc_ok then some (List.replicate cfg.nr_cpu_ids ⟨0, 0⟩) else none
  match parse_dt_loop (num_possible_cpus cfg) nodes
      { cpu := 0, min_capacity := ULONG_MINUS_ONE, max_capacity := 0, table := table0 } with
  | none => none
  | some st =>
    let table1 : Option (Option (List cpu_capacity)) :=
      if st.cpu < num_possible_cpus cfg then
        (write_hwid st.table st.cpu ULONG_MINUS_ONE).map some
      else some st.table
    match table1 with
    | none => none
    | some t1 =>
      if st.min_capacity = st.max_capacity then
        match write_hwid t1 0 ULONG_MINUS_ONE with
        | none => none
        | some t2 => some { s with cpu_capacity := some t2 }
      else if (4 * st.max_capacity) % 2 ^ 32
          < (3 * ((st.max_capacity + st.min_capacity) % 2 ^ 32)) % 2 ^ 32 then
        some { s with
          cpu_capacity := t1,
          middle_capacity :=
            ((st.min_capacity + st.max_capacity) % 2 ^ 32) >>> (SCHED_POWER_SHIFT + 1) }
      else
        some { s with
          cpu_capacity := t1,
          middle_capacity :=
            (((st.max_capacity / 3) >>> (SCHED_POWER_SHIFT - 1)) + 1) % 2 ^ 32 }

/-- The outcome of the search loop of `update_cpu_power`. -/
inductive Lookup where
  | fault : Lookup
  | returned : Lookup
  | found (idx : Nat) : Lookup
  | exhausted : Lookup

/-- The for loop of `update_cpu_power` (lines 187-193), `fuel` iterations
left, starting at index `idx`. -/
def update_cpu_power_loop (table : Option (List cpu_capacity)) (hwid : Nat) :
    Nat → Nat → Lookup
  | 0, _ => Lookup.exhausted
  | fuel + 1, idx =>
    match table with
    | none => Lookup.fault
    | some l =>
      match l.get? idx with
      | none => Lookup.fault
      | some e =>
        if e.hwid = hwid then Lookup.found idx
        else if e.hwid = ULONG_MINUS_ONE then Lookup.returned
        else update_cpu_power_loop table hwid fuel (idx + 1)

/-- The function `update_cpu_power`. -/
def update_cpu_power (cfg : Config) (cpu hwid_arg : Nat) (s : KState) : Option KState :=
  let hwid := hwid_arg % 2 ^ 32
  match update_cpu_power_loop s.cpu_capacity hwid (num_possible_cpus cfg) 0 with
  | Lookup.fault => none
  | Lookup.returned => some s
  | Lookup.exhausted => some s
  | Lookup.found idx =>
    match s.cpu_capacity with
    | none => none
    | some l =>
      match l.get? idx with
      | none => none
      | some e =>
        if s.middle_capacity = 0 then none
        else some (set_power_scale cpu (e.capacity / s.middle_capacity) s)

/-! ## cpu topology table -/

/-- The zero-initialised entry of the static array `cpu_topology[NR_CPUS]`. -/
def cputopo_zero : cputopo_arm :=
  { id := 0, thread_id := 0, core_id := 0, socket_id := 0,
    thread_sibling := ∅, core_sibling := ∅ }

/-- The read `cpu_topology[i]`. The list is the array `cpu_topology[NR_CPUS]`;
an index past its end names no CPU of the system (the read gives the zero
entry). -/
def topo_at (t : List cputopo_arm) (i : Nat) : cputopo_arm := t.getD i cputopo_zero

/-- The call `cpumask_set_cpu(cpu, mask)`. -/
def cpumask_set_cpu (cpu : Nat) (mask : Finset Nat) : Finset Nat := insert cpu mask

/-- The statement `cpumask_set_cpu(cpu, &cpu_topology[i].core_sibling)`. -/
def set_core_sibling (t : List cputopo_arm) (i cpu : Nat) : List cputopo_arm :=
  t.set i { topo_at t i with core_sibling := cpumask_set_cpu cpu (topo_at t i).core_sibling }

/-- The statement `cpumask_set_cpu(cpu, &cpu_topology[i].thread_sibling)`. -/
def set_thread_sibling (t : List cputopo_arm) (i cpu : Nat) : List cputopo_arm :=
  t.set i { topo_at t i with thread_sibling := cpumask_set_cpu cpu (topo_at t i).thread_sibling }

/-- The body of the loop of `clear_cpu_topology_mask`. -/
def clear_cpu_topology_mask_body (t : List cputopo_arm) (cpuid : Nat) : List cputopo_arm :=
  t.set cpuid { topo_at t cpuid with core_sibling := ∅, thread_sibling := ∅ }

/-- The function `clear_cpu_topology_mask`. -/
def clear_cpu_topology_mask (cfg : Config) (t : List cputopo_arm) : List cputopo_arm :=
  (possible_cpus cfg).foldl clear_cpu_topology_mask_body t

/-- The body of the loop of `default_cpu_topology_mask`. -/
def default_cpu_topology_mask_body (cpuid : Nat) (t : List cputopo_arm) (cpu : Nat) :
    List cputopo_arm :=
  if (topo_at t cpuid).socket_id = (topo_at t cpu).socket_id then
    let t1 := set_core_sibling t cpu cpuid
    let t2 := if cpu ≠ cpuid then set_core_sibling t1 cpuid cpu else t1
    if (topo_at t2 cpuid).core_id = (topo_at t2 cpu).core_id then
      let t3 := set_thread_sibling t2 cpu cpuid
      if cpu ≠ cpuid then set_thread_sibling t3 cpuid cpu else t3
    else t2
  else t

/-- The function `default_cpu_topology_mask`. -/
def default_cpu_topology_mask (cfg : Config) (cpuid : Nat) (t : List cputopo_arm) :
    List cputopo_arm :=
  (possible_cpus cfg).foldl (default_cpu_topology_mask_body cpuid) t

/-- The function `normal_cpu_topology_mask`. -/
def normal_cpu_topology_mask (cfg : Config) (t : List cputopo_arm) : List cputopo_arm :=
  (possible_cpus cfg).foldl (fun t cpuid => default_cpu_topology_mask cfg cpuid t) t

/-- The body of the loop of `power_cpu_topology_mask_CA9`. -/
def power_cpu_topology_mask_CA9_body (cpuid : Nat) (t : List cputopo_arm) (cpu : Nat) :
    List cputopo_arm :=
  if (topo_at t cpuid).socket_id = (topo_at t cpu).socket_id ∧ cpuid &&& 0x1 = cpu &&& 0x1 then
    let t1 := set_core_sibling t cpu cpuid
    let t2 := if cpu ≠ cpuid then set_core_sibling t1 cpuid cpu else t1
    if (topo_at t2 cpuid).core_id = (topo_at t2 cpu).core_id then
      let t3 := set_thread_sibling t2 cpu cpuid
      if cpu ≠ cpuid then set_thread_sibling t3 cpuid cpu else t3
    else t2
  else t

/-- The function `power_cpu_topology_mask_CA9`. -/
def power_cpu_topology_mask_CA9 (cfg : Config) (cpuid : Nat) (t : List cputopo_arm) :
    List cputopo_arm :=
  (possible_cpus cfg).foldl (power_cpu_topology_mask_CA9_body cpuid) t

/-- The function `need_topology_update`: the flag it returns and the state with
the snapshot of the two flags refreshed. -/
def need_topology_update (sched_mc_power_savings sched_smt_power_savings : Nat)
    (s : KState) : Bool × KState :=
  let update : Bool :=
    (s.prev_sched_mc_power_savings ^^^ sched_mc_power_savings != 0)
      || (s.prev_sched_smt_power_savings ^^^ sched_smt_power_savings != 0)
  (update, { s with
    prev_sched_mc_power_savings := sched_mc_power_savings,
    prev_sched_smt_power_savings := sched_smt_power_savings })

/-- The body of the loop of `update_cpu_topology_mask` (the switch on the
family id of the cpu). -/
def update_cpu_topology_mask_body (cfg : Config) (t : List cputopo_arm) (cpuid : Nat) :
    List cputopo_arm :=
  if (topo_at t cpuid).id = (ARM_CORTEX_A9_FAMILY : Int) then
    power_cpu_topology_mask_CA9 cfg cpuid t
  else default_cpu_topology_mask cfg cpuid t

/-- The function `update_cpu_topology_mask` (its return value is always 0). -/
def update_cpu_topology_mask (cfg : Config) (sched_mc_power_savings : Nat)
    (t : List cputopo_arm) : List cputopo_arm :=
  if sched_mc_power_savings = POWERSAVINGS_BALANCE_NONE then normal_cpu_topology_mask cfg t
  else (possible_cpus cfg).foldl (update_cpu_topology_mask_body cfg) t

/-- The value an `int` holds after an `unsigned int` value is stored in it
(two's complement, 32 bits): values from `2 ^ 31` on become negative. -/
def int_of_u32 (x : Nat) : Int :=
  if x % 2 ^ 32 < 2 ^ 31 then ((x % 2 ^ 32 : Nat) : Int)
  else ((x % 2 ^ 32 : Nat) : Int) - 2 ^ 32

/-- The identity fields `store_cpu_topology` writes into the entry `e` of an
undiscovered cpu (lines 418-450). -/
def decode_mpidr (mpidr_reg midr_reg : Nat) (e : cputopo_arm) : cputopo_arm :=
  let mpidr := mpidr_reg % 2 ^ 32
  if mpidr &&& MPIDR_SMP_BITMASK = MPIDR_SMP_VALUE then
    let e2 : cputopo_arm :=
      if mpidr &&& MPIDR_MT_BITMASK ≠ 0 then
        { e with
          thread_id := (MPIDR_AFFINITY_LEVEL mpidr 0 : Nat),
          core_id := (MPIDR_AFFINITY_LEVEL mpidr 1 : Nat),
          socket_id := (MPIDR_AFFINITY_LEVEL mpidr 2 : Nat) }
      else
        { e with
          thread_id := -1,
          core_id := (MPIDR_AFFINITY_LEVEL mpidr 0 : Nat),
          socket_id := (MPIDR_AFFINITY_LEVEL mpidr 1 : Nat) }
    { e2 with id := int_of_u32 ((midr_reg % 2 ^ 32) &&& ARM_FAMILY_MASK) }
  else
    { e with thread_id := -1, core_id := 0, socket_id := -1 }

/-- The function `store_cpu_topology`; `mpidr_reg` and `midr_reg` are what
`read_cpuid_mpidr()` and `read_cpuid_id()` return. -/
def store_cpu_topology (cfg : Config) (cpuid mpidr_reg midr_reg : Nat) (s : KState) : KState :=
  if (topo_at s.cpu_topology cpuid).core_id ≠ -1 then s
  else
    { s with
      cpu_topology := default_cpu_topology_mask cfg cpuid
        (s.cpu_topology.set cpuid (decode_mpidr mpidr_reg midr_reg (topo_at s.cpu_topology cpuid))) }

/-- The function `arch_update_cpu_topology`: its return value and the state it
leaves; the two arguments are the current values of the global flags
`sched_mc_power_savings` and `sched_smt_power_savings`. -/
def arch_update_cpu_topology (cfg : Config)
    (sched_mc_power_savings sched_smt_power_savings : Nat) (s : KState) : Int × KState :=
  let r := need_topology_update sched_mc_power_savings sched_smt_power_savings s
  if r.1 = false then (0, r.2)
  else
    let t1 := clear_cpu_topology_mask cfg r.2.cpu_topology
    let t2 := update_cpu_topology_mask cfg sched_mc_power_savings t1
    (1, { r.2 with
      cpu_topology := t2,
      notifier_calls := r.2.notifier_calls ++ [sched_mc_power_savings] })

/-- The body of the loop of `init_cpu_topology`. -/
def init_cpu_topology_body (s : KState) (cpu : Nat) : KState :=
  { s with
    cpu_topology := s.cpu_topology.set cpu
      { id := -1, thread_id := -1, core_id := -1, socket_id := -1,
        core_sibling := ∅, thread_sibling := ∅ },
    cpu_scale := Function.update s.cpu_scale cpu SCHED_POWER_SCALE }

/-- The function `init_cpu_topology`. -/
def init_cpu_topology (cfg : Config) (alloc_ok : Bool) (nodes : List device_node)
    (s : KState) : Option KState :=
  parse_dt_topology cfg alloc_ok nodes ((possible_cpus cfg).foldl init_cpu_topology_body s)

/-! ## Vocabulary of the statements -/

/-- The two cpus `a` and `b` are the pair `cpuid`, `cpu` in one of the two
orders: the two bits one iteration of a mask routine sets. -/
def pair_of (cpuid cpu a b : Nat) : Prop := (a = cpu ∧ b = cpuid) ∨ (a = cpuid ∧ b = cpu)

/-- The test guarding the core_sibling stores of a mask routine: the default
routine when `par` is false, the Cortex-A9 routine when it is true. -/
def joinC (par : Bool) (t : List cputopo_arm) (cpuid cpu : Nat) : Prop :=
  (topo_at t cpuid).socket_id = (topo_at t cpu).socket_id ∧
    (par = true → cpuid &&& 0x1 = cpu &&& 0x1)

/-- The test guarding the thread_sibling stores of a mask routine. -/
def joinT (par : Bool) (t : List cputopo_arm) (cpuid cpu : Nat) : Prop :=
  joinC par t cpuid cpu ∧ (topo_at t cpuid).core_id = (topo_at t cpu).core_id

/-- The loop body of the default routine (`par` false) or of the Cortex-A9
routine (`par` true). -/
def mask_body (par : Bool) (cpuid : Nat) (t : List cputopo_arm) (cpu : Nat) :
    List cputopo_arm :=
  match par with
  | false => default_cpu_topology_mask_body cpuid t cpu
  | true => power_cpu_topology_mask_CA9_body cpuid t cpu

/-- The routine `update_cpu_topology_mask` picks for `cpuid`: the Cortex-A9 one
exactly when multi-core power saving is on and the family id matches. -/
def par_of (mc_none : Bool) (t : List cputopo_arm) (cpuid : Nat) : Bool :=
  !mc_none && decide ((topo_at t cpuid).id = (ARM_CORTEX_A9_FAMILY : Int))

/-- The table `t2` has the length and the identity fields of `t1`, and its
sibling sets are those of `t1` enlarged by the pairs of `C` (core) and `T`
(thread). -/
def Ext (t1 t2 : List cputopo_arm) (C T : Nat → Nat → Prop) : Prop :=
  t2.length = t1.length ∧
  (∀ x, (topo_at t2 x).id = (topo_at t1 x).id ∧
        (topo_at t2 x).thread_id = (topo_at t1 x).thread_id ∧
        (topo_at t2 x).core_id = (topo_at t1 x).core_id ∧
        (topo_at t2 x).socket_id = (topo_at t1 x).socket_id) ∧
  (∀ a b, b ∈ (topo_at t2 a).core_sibling ↔ b ∈ (topo_at t1 a).core_sibling ∨ C a b) ∧
  (∀ a b, b ∈ (topo_at t2 a).thread_sibling ↔ b ∈ (topo_at t1 a).thread_sibling ∨ T a b)

/-- One call of the topology interface. -/
inductive Op where
  | store (cpuid mpidr_reg midr_reg : Nat) : Op
  | update (sched_mc_power_savings sched_smt_power_savings : Nat) : Op

/-- The state after one call. -/
def step (cfg : Config) (s : KState) : Op → KState
  | Op.store cpuid mpidr_reg midr_reg => store_cpu_topology cfg cpuid mpidr_reg midr_reg s
  | Op.update mc smt => (arch_update_cpu_topology cfg mc smt s).2

/-- The state after a sequence of calls. -/
def run (cfg : Config) (ops : List Op) (s : KState) : KState := ops.foldl (step cfg) s

/-- A call is admissible when `store_cpu_topology` is called for a possible cpu. -/
def valid_op (cfg : Config) : Op → Prop
  | Op.store cpuid _ _ => cpuid ∈ possible_cpus cfg
  | Op.update _ _ => True

/-- The properties of the sibling sets that every call of the interface keeps:
the array covers the possible cpus, both sibling relations are symmetric,
thread siblings are core siblings, and a discovered cpu is its own sibling. -/
def Good (cfg : Config) (s : KState) : Prop :=
  cfg.nr_cpu_ids ≤ s.cpu_topology.length ∧
  (∀ a ∈ possible_cpus cfg, ∀ b ∈ possible_cpus cfg,
    (a ∈ (topo_at s.cpu_topology b).core_sibling ↔ b ∈ (topo_at s.cpu_topology a).core_sibling) ∧
    (a ∈ (topo_at s.cpu_topology b).thread_sibling
      ↔ b ∈ (topo_at s.cpu_topology a).thread_sibling)) ∧
  (∀ c ∈ possible_cpus cfg,
    (topo_at s.cpu_topology c).thread_sibling ⊆ (topo_at s.cpu_topology c).core_sibling) ∧
  (∀ c ∈ possible_cpus cfg, (topo_at s.cpu_topology c).core_id ≠ -1 →
    c ∈ (topo_at s.cpu_topology c).core_sibling ∧ c ∈ (topo_at s.cpu_topology c).thread_sibling)

/-! ## Concrete systems used to instantiate the theorems -/

/-- A system with four possible cpus, numbered 0 to 3. -/
def demo_cfg : Config := { nr_cpu_ids := 4, cpu_possible := fun _ => true }

/-- An entry of a discovered cpu whose sibling sets hold stale bits. -/
def demo_entry (family core socket : Int) : cputopo_arm :=
  { id := family, thread_id := -1, core_id := core, socket_id := socket,
    thread_sibling := {7}, core_sibling := {5} }

/-- Four discovered cpus of one family on socket 0, with core ids 0 to 3; both
power-saving flags were last seen off. -/
def demo_state (family : Int) : KState :=
  { cpu_scale := fun _ => SCHED_POWER_SCALE, cpu_capacity := none, middle_capacity := 1,
    cpu_topology := [demo_entry family 0 0, demo_entry family 1 0,
      demo_entry family 2 0, demo_entry family 3 0],
    prev_sched_mc_power_savings := 0, prev_sched_smt_power_savings := 0,
    notifier_calls := [] }

/-- The memory before `init_cpu_topology` runs: zeroed statics, `middle_capacity`
initialised to 1. -/
def demo_boot : KState :=
  { cpu_scale := fun _ => 0, cpu_capacity := none, middle_capacity := 1,
    cpu_topology := List.replicate 4 cputopo_zero,
    prev_sched_mc_power_savings := 0, prev_sched_smt_power_savings := 0,
    notifier_calls := [] }

/-- The state `init_cpu_topology` leaves on `demo_boot` when the device tree
has no cpu node. -/
def demo_init : KState :=
  { cpu_scale := ((possible_cpus demo_cfg).foldl init_cpu_topology_body demo_boot).cpu_scale,
    cpu_capacity := some [⟨ULONG_MINUS_ONE, 0⟩, ⟨0, 0⟩, ⟨0, 0⟩, ⟨0, 0⟩],
    middle_capacity := 2 ^ 21 - 1,
    cpu_topology := List.replicate 4
      { id := -1, thread_id := -1, core_id := -1, socket_id := -1,
        thread_sibling := ∅, core_sibling := ∅ },
    prev_sched_mc_power_savings := 0, prev_sched_smt_power_savings := 0,
    notifier_calls := [] }

/-- Two cpus boot, multi-core power saving is switched on, a third cpu boots. -/
def demo_ops : List Op :=
  [Op.store 0 0x80000000 0x410FC090, Op.store 1 0x80000001 0x410FC090, Op.update 1 0,
   Op.store 2 0x80000002 0x410FC090]

/-- A cpu node compatible with exactly the string `compat`, with a four-byte
clock-frequency of value `rate` and a four-byte reg of value `reg`. -/
def demo_node (compat : String) (rate reg : Nat) : device_node :=
  { is_compatible := fun c => decide (c = compat),
    clock_frequency := some { len := 4, be32 := rate },
    reg := some { len := 4, be32 := reg } }

/-- A Cortex-A15 at 567 MHz with hardware id 0 and a Cortex-A7 at 359 MHz with
hardware id 1. -/
def demo_nodes_rounding : List device_node :=
  [demo_node "arm,cortex-a15" 567000000 0, demo_node "arm,cortex-a7" 359000000 1]

/-- A Cortex-A15 whose clock-frequency is 1 MHz (below `1 << 20` Hz), hardware
id 0, and a Cortex-A7 at 1 GHz with hardware id 1. -/
def demo_nodes_slow : List device_node :=
  [demo_node "arm,cortex-a15" 1000000 0, demo_node "arm,cortex-a7" 1000000000 1]

/-- Two Cortex-A15 at 1 GHz, hardware ids 0 and 1: a homogeneous system. -/
def demo_nodes_homogeneous : List device_node :=
  [demo_node "arm,cortex-a15" 1000000000 0, demo_node "arm,cortex-a15" 1000000000 1]

/-- Two Cortex-A15 and two Cortex-A7, all at 1 GHz, hardware ids 0 to 3. -/
def demo_nodes_big_little : List device_node :=
  [demo_node "arm,cortex-a15" 1000000000 0, demo_node "arm,cortex-a15" 1000000000 1,
   demo_node "arm,cortex-a7" 1000000000 2, demo_node "arm,cortex-a7" 1000000000 3]

/-- The capacity `arch_scale_freq_power(cpu)` reads after `init_cpu_topology`
on `nodes` followed by `update_cpu_power(cpu, hwid)`; `none` is a fault. -/
def resolved_capacity (cfg : Config) (alloc_ok : Bool) (nodes : List device_node)
    (boot : KState) (cpu hwid : Nat) : Option Nat :=
  match init_cpu_topology cfg alloc_ok nodes boot with
  | none => none
  | some s =>
    match update_cpu_power cfg cpu hwid s with
    | none => none
    | some s1 => some (arch_scale_freq_power s1 cpu)

/-- The state of the loop of `parse_dt_topology` on a system whose resolved
nodes all have the frequency class `k = rate >> 20`: the running minimum and
maximum are still at their initial value or one of the two raw capacities, and
every entry of the array is untouched (capacity 0) or holds one of the two raw
capacities, between the minimum and the maximum. -/
def PInv (k : Nat) (st : ParseState) : Prop :=
  (st.min_capacity = ULONG_MINUS_ONE ∨ st.min_capacity = 2048 * k
    ∨ st.min_capacity = 3891 * k) ∧
  (st.max_capacity = 0 ∨ st.max_capacity = 2048 * k ∨ st.max_capacity = 3891 * k) ∧
  (∀ l, st.table = some l → ∀ i e, l.get? i = some e →
    e.capacity = 0 ∨
    ((e.capacity = 2048 * k ∨ e.capacity = 3891 * k) ∧ k < 4096 ∧
      st.min_capacity ≤ e.capacity ∧ e.capacity ≤ st.max_capacity))

/-- The state `init_cpu_topology` leaves on `demo_boot` for the device tree
`demo_nodes_big_little`. -/
def demo_big_little : KState :=
  (init_cpu_topology demo_cfg true demo_nodes_big_little demo_boot).getD demo_boot

/-! ## The observer chain -/

/-- Modelled from the spec: `atomic_notifier_chain_register` of kernel/notifier.c
is not part of the sources. The spec: the registry is an ordered collection of
observer callbacks, insertion order is call order; registering a callback that
is already present is reported as a recoverable error (duplicate) and is a
no-op. A callback is named by a number, the chain is the list of registered
callbacks in registration order; the result is the status (0, or `-EEXIST`)
and the chain. -/
def atomic_notifier_chain_register (chain : List Nat) (nb : Nat) : Int × List Nat :=
  if nb ∈ chain then (-17, chain) else (0, chain ++ [nb])

/-- Modelled from the spec: `atomic_notifier_chain_unregister` of
kernel/notifier.c is not part of the sources. The spec: unregistering an
unknown callback reports "not found" without side effects; a registered
callback is taken out of the collection. -/
def atomic_notifier_chain_unregister (chain : List Nat) (nb : Nat) : Int × List Nat :=
  if nb ∈ chain then (0, chain.erase nb) else (-2, chain)

/-- Modelled from the spec: `atomic_notifier_call_chain` of kernel/notifier.c is
not part of the sources. The spec: every registered callback is invoked once,
in registration order, with the value passed to the chain; the result is the
list of invocations, callback and value. -/
def atomic_notifier_call_chain (chain : List Nat) (val : Nat) : List (Nat × Nat) :=
  chain.map (fun nb => (nb, val))

/-- The function `topology_register_notifier` on the chain
`topology_update_notifier_list`. -/
def topology_register_notifier (chain : List Nat) (nb : Nat) : Int × List Nat :=
  atomic_notifier_chain_register chain nb

/-- The function `topology_unregister_notifier`. -/
def topology_unregister_notifier (chain : List Nat) (nb : Nat) : Int × List Nat :=
  atomic_notifier_chain_unregister chain nb

/-- One call of the notifier interface. -/
inductive NotifierOp where
  | register (nb : Nat) : NotifierOp
  | unregister (nb : Nat) : NotifierOp

/-- The chain after one call of the notifier interface. -/
def notifier_step (chain : List Nat) : NotifierOp → List Nat
  | NotifierOp.register nb => (topology_register_notifier chain nb).2
  | NotifierOp.unregister nb => (topology_unregister_notifier chain nb).2

/-- The chain after a sequence of calls, from the empty chain of
`ATOMIC_NOTIFIER_HEAD`. -/
def notifier_run (ops : List NotifierOp) : List Nat := ops.foldl notifier_step []

/-- Two callbacks are registered, the first one is registered again, and an
unknown callback is unregistered. -/
def demo_notifier_ops : List NotifierOp :=
  [NotifierOp.register 1, NotifierOp.register 2, NotifierOp.register 1,
   NotifierOp.unregister 3]

/-- The running minimum and maximum of the loop of `parse_dt_topology` with the
shipped `table_efficiency`: either no node has been resolved yet, or both are
raw capacities, below `2 ^ 24`, and the minimum is 0 or at least 2048. -/
def BInv (st : ParseState) : Prop :=
  (st.min_capacity = ULONG_MINUS_ONE ∧ st.max_capacity = 0) ∨
  (st.min_capacity ≤ st.max_capacity ∧ st.max_capacity < 2 ^ 24 ∧
    (st.min_capacity = 0 ∨ 2048 ≤ st.min_capacity))

/-- The state in which the loop of `parse_dt_topology` starts. -/
def parse_start (cfg : Config) (alloc_ok : Bool) : ParseState :=
  { cpu := 0, min_capacity := ULONG_MINUS_ONE, max_capacity := 0,
    table := if alloc_ok then some (List.replicate cfg.nr_cpu_ids ⟨0, 0⟩) else none }

/-- The state in which the loop of `parse_dt_topology` ends on
`demo_nodes_rounding`: two resolved entries, minimum 700416, maximum 2101140. -/
def demo_rounding_parse : ParseState :=
  { cpu := 2, min_capacity := 700416, max_capacity := 2101140,
    table := some [⟨0, 2101140⟩, ⟨1, 700416⟩, ⟨0, 0⟩, ⟨0, 0⟩] }

/-- The state `parse_dt_topology` leaves for `demo_nodes_rounding`, started in
`demo_boot`. -/
def demo_rounding : KState :=
  (parse_dt_topology demo_cfg true demo_nodes_rounding demo_boot).getD demo_boot

/-- The table after the identity stores of `store_cpu_topology(0)` on
`demo_init`, for the MPIDR value `mpidr_reg` and the main id 0, before the
mask update. -/
def demo_decoded (mpidr_reg : Nat) : List cputopo_arm :=
  demo_init.cpu_topology.set 0 (decode_mpidr mpidr_reg 0 (topo_at demo_init.cpu_topology 0))

/-! ## The skip-with-continue mask routine -/

/-- The body of the loop of `update_siblings_masks` (lines 273-289); each
`continue` ends the iteration with the table as it is at that point. -/
def update_siblings_masks_body (cpuid : Nat) (t : List cputopo_arm) (cpu : Nat) :
    List cputopo_arm :=
  if (topo_at t cpuid).socket_id ≠ (topo_at t cpu).socket_id then t
  else
    let t1 := set_core_sibling t cpu cpuid
    let t2 := if cpu ≠ cpuid then set_core_sibling t1 cpuid cpu else t1
    if (topo_at t2 cpuid).core_id ≠ (topo_at t2 cpu).core_id then t2
    else
      let t3 := set_thread_sibling t2 cpu cpuid
      if cpu ≠ cpuid then set_thread_sibling t3 cpuid cpu else t3

/-- The function `update_siblings_masks`. -/
def update_siblings_masks (cfg : Config) (cpuid : Nat) (t : List cputopo_arm) :
    List cputopo_arm :=
  (possible_cpus cfg).foldl (update_siblings_masks_body cpuid) t

/-! ## The frequency-change handler list of arch/arm/mach-sc/psfreq.c

A handler is the value of a function pointer, `NULL_HANDLER` being the null
pointer; the list `freqconv_handlers` is the list of the `notify` pointers of
its nodes, head first. -/

/-- The enumerator `PS_FREQ_CMD`. -/
def PS_FREQ_CMD : Int := 0

/-- The enumerator `PS_CMD_MAX`. -/
def PS_CMD_MAX : Int := 1

/-- The record `struct freqconv_cmd`. -/
structure freqconv_cmd where
  cmd_type : Int
  length : Nat
  freq : Nat
  suspended : Nat

/-- The null function pointer. -/
def NULL_HANDLER : Nat := 0

/-- The search loop of `register_freqconv_change` and
`unregister_freqconv_change`: whether a node with `h->notify == handler` is
met. -/
def find_handler : List Nat → Nat → Bool
  | [], _ => false
  | h :: rest, handler => if h = handler then true else find_handler rest handler

/-- The function `register_freqconv_change`; `alloc_ok` tells whether `kmalloc`
returned a node. -/
def register_freqconv_change (alloc_ok : Bool) (handlers : List Nat) (handler : Nat) :
    List Nat :=
  if find_handler handlers handler then handlers
  else if !alloc_ok then handlers
  else handlers ++ [handler]

/-- The call `list_del(&h->link)` on the first node with
`h->notify == handler`, the node the search loop of
`unregister_freqconv_change` stops at. -/
def del_handler : List Nat → Nat → List Nat
  | [], _ => []
  | h :: rest, handler => if h = handler then rest else h :: del_handler rest handler

/-- The function `unregister_freqconv_change`. -/
def unregister_freqconv_change (handlers : List Nat) (handler : Nat) : List Nat :=
  if find_handler handlers handler then del_handler handlers handler else handlers

/-- The loop of `freqconv_donotify` over the handler list: the calls
`h->notify(freq, suspended)` it makes, in order. -/
def notify_handlers (freq suspended : Nat) : List Nat → List (Nat × Nat × Nat)
  | [] => []
  | h :: rest =>
    if h ≠ NULL_HANDLER then (h, freq, suspended) :: notify_handlers freq suspended rest
    else notify_handlers freq suspended rest

/-- The function `freqconv_donotify`: the calls of handlers it makes, in order;
`none` is a NULL `pcmd`. -/
def freqconv_donotify (pcmd : Option freqconv_cmd) (handlers : List Nat) :
    List (Nat × Nat × Nat) :=
  match pcmd with
  | none => []
  | some cmd =>
    if cmd.cmd_type = PS_FREQ_CMD then notify_handlers cmd.freq cmd.suspended handlers
    else []

/-- One call of the handler interface. -/
inductive FreqOp where
  | register (alloc_ok : Bool) (handler : Nat) : FreqOp
  | unregister (handler : Nat) : FreqOp

/-- The handler list after one call. -/
def freq_step (handlers : List Nat) : FreqOp → List Nat
  | FreqOp.register alloc_ok handler => register_freqconv_change alloc_ok handlers handler
  | FreqOp.unregister handler => unregister_freqconv_change handlers handler

/-- The handler list after a sequence of calls, from the empty list of
`LIST_HEAD(freqconv_handlers)`. -/
def freq_run (ops : List FreqOp) : List Nat := ops.foldl freq_step []

/-- Handlers 5 and 7 are registered, a registration fails for lack of memory,
5 is registered again, the unknown 3 and then 5 are unregistered, and 5 is
registered anew: the list ends as 7, 5. -/
def demo_freq_ops : List FreqOp :=
  [FreqOp.register true 5, FreqOp.register true 7, FreqOp.register false 9,
   FreqOp.register true 5, FreqOp.unregister 3, FreqOp.unregister 5, FreqOp.register true 5]

/-- A frequency command. -/
def demo_freq_cmd : freqconv_cmd :=
  { cmd_type := PS_FREQ_CMD, length := 16, freq := 800000, suspended := 0 }

/-! ## The array accessors -/

theorem topo_at_set (t : List cputopo_arm) (i : Nat) (e : cputopo_arm) (j : Nat)
    (h : i < t.length) :
    topo_at (t.set i e) j = if j = i then e else topo_at t j := by
  unfold topo_at
  by_cases hji : j = i
  · subst hji
    simp [List.getD_eq_getElem?_getD, List.getElem?_set, h]
  · simp [List.getD_eq_getElem?_getD, List.getElem?_set, hji, Ne.symm hji]

theorem topo_at_set_self (t : List cputopo_arm) (i : Nat) (j : Nat) :
    topo_at (t.set i (topo_at t i)) j = topo_at t j := by
  by_cases h : i < t.length
  · rw [topo_at_set t i _ j h]
    split_ifs with hji
    · rw [hji]
    · rfl
  · rw [List.set_eq_of_length_le (Nat.le_of_not_lt h)]

theorem ext_set_core (t : List cputopo_arm) (i cpu : Nat) (h : i < t.length) :
    Ext t (set_core_sibling t i cpu) (fun a b => a = i ∧ b = cpu) (fun _ _ => False) := by
  unfold Ext set_core_sibling
  refine ⟨by simp, ?_, ?_, ?_⟩
  · intro x
    rw [topo_at_set t i _ x h]
    split_ifs with hx
    · subst hx; simp
    · simp
  · intro a b
    rw [topo_at_set t i _ a h]
    split_ifs with ha
    · subst ha; simp [cpumask_set_cpu]; tauto
    · simp [ha]
  · intro a b
    rw [topo_at_set t i _ a h]
    split_ifs with ha
    · subst ha; simp
    · simp

theorem ext_set_thread (t : List cputopo_arm) (i cpu : Nat) (h : i < t.length) :
    Ext t (set_thread_sibling t i cpu) (fun _ _ => False) (fun a b => a = i ∧ b = cpu) := by
  unfold Ext set_thread_sibling
  refine ⟨by simp, ?_, ?_, ?_⟩
  · intro x
    rw [topo_at_set t i _ x h]
    split_ifs with hx
    · subst hx; simp
    · simp
  · intro a b
    rw [topo_at_set t i _ a h]
    split_ifs with ha
    · subst ha; simp
    · simp
  · intro a b
    rw [topo_at_set t i _ a h]
    split_ifs with ha
    · subst ha; simp [cpumask_set_cpu]; tauto
    · simp [ha]

theorem ext_refl (t : List cputopo_arm) : Ext t t (fun _ _ => False) (fun _ _ => False) := by
  unfold Ext
  simp

theorem ext_trans {t1 t2 t3 : List cputopo_arm} {C1 T1 C2 T2 : Nat → Nat → Prop}
    (h1 : Ext t1 t2 C1 T1) (h2 : Ext t2 t3 C2 T2) :
    Ext t1 t3 (fun a b => C1 a b ∨ C2 a b) (fun a b => T1 a b ∨ T2 a b) := by
  obtain ⟨l1, i1, c1, d1⟩ := h1
  obtain ⟨l2, i2, c2, d2⟩ := h2
  refine ⟨l2.trans l1, ?_, ?_, ?_⟩
  · intro x
    obtain ⟨p1, p2, p3, p4⟩ := i1 x
    obtain ⟨q1, q2, q3, q4⟩ := i2 x
    exact ⟨q1.trans p1, q2.trans p2, q3.trans p3, q4.trans p4⟩
  · intro a b
    rw [c2, c1, or_assoc]
  · intro a b
    rw [d2, d1, or_assoc]

theorem ext_congr {t1 t2 : List cputopo_arm} {C1 T1 C2 T2 : Nat → Nat → Prop}
    (h : Ext t1 t2 C1 T1) (hC : ∀ a b, C1 a b ↔ C2 a b) (hT : ∀ a b, T1 a b ↔ T2 a b) :
    Ext t1 t2 C2 T2 := by
  obtain ⟨l1, i1, c1, d1⟩ := h
  refine ⟨l1, i1, ?_, ?_⟩
  · intro a b
    rw [c1, hC]
  · intro a b
    rw [d1, hT]

theorem joinC_ext {t1 t2 : List cputopo_arm} {C T : Nat → Nat → Prop} (h : Ext t1 t2 C T)
    (par : Bool) (cpuid cpu : Nat) : joinC par t2 cpuid cpu ↔ joinC par t1 cpuid cpu := by
  unfold joinC
  rw [(h.2.1 cpuid).2.2.2, (h.2.1 cpu).2.2.2]

theorem joinT_ext {t1 t2 : List cputopo_arm} {C T : Nat → Nat → Prop} (h : Ext t1 t2 C T)
    (par : Bool) (cpuid cpu : Nat) : joinT par t2 cpuid cpu ↔ joinT par t1 cpuid cpu := by
  unfold joinT
  rw [joinC_ext h, (h.2.1 cpuid).2.2.1, (h.2.1 cpu).2.2.1]

theorem par_of_ext {t1 t2 : List cputopo_arm} {C T : Nat → Nat → Prop} (h : Ext t1 t2 C T)
    (m : Bool) (cpuid : Nat) : par_of m t2 cpuid = par_of m t1 cpuid := by
  unfold par_of
  rw [(h.2.1 cpuid).1]

/-! ## One iteration of a mask routine -/

theorem ext_link_core (t : List cputopo_arm) (cpuid cpu : Nat)
    (h1 : cpuid < t.length) (h2 : cpu < t.length) :
    Ext t (if cpu ≠ cpuid then set_core_sibling (set_core_sibling t cpu cpuid) cpuid cpu
           else set_core_sibling t cpu cpuid)
      (fun a b => pair_of cpuid cpu a b) (fun _ _ => False) := by
  have e1 := ext_set_core t cpu cpuid h2
  split_ifs with hne
  · have e2 := ext_set_core (set_core_sibling t cpu cpuid) cpuid cpu (by rw [e1.1]; exact h1)
    refine ext_congr (ext_trans e1 e2) ?_ ?_
    · intro a b; unfold pair_of; tauto
    · intro a b; tauto
  · have hEq : cpu = cpuid := by
      by_contra hc
      exact hne hc
    refine ext_congr e1 ?_ ?_
    · intro a b; unfold pair_of; subst hEq; tauto
    · intro a b; tauto

theorem ext_link_thread (t : List cputopo_arm) (cpuid cpu : Nat)
    (h1 : cpuid < t.length) (h2 : cpu < t.length) :
    Ext t (if cpu ≠ cpuid then set_thread_sibling (set_thread_sibling t cpu cpuid) cpuid cpu
           else set_thread_sibling t cpu cpuid)
      (fun _ _ => False) (fun a b => pair_of cpuid cpu a b) := by
  have e1 := ext_set_thread t cpu cpuid h2
  split_ifs with hne
  · have e2 := ext_set_thread (set_thread_sibling t cpu cpuid) cpuid cpu (by rw [e1.1]; exact h1)
    refine ext_congr (ext_trans e1 e2) ?_ ?_
    · intro a b; tauto
    · intro a b; unfold pair_of; tauto
  · have hEq : cpu = cpuid := by
      by_contra hc
      exact hne hc
    refine ext_congr e1 ?_ ?_
    · intro a b; tauto
    · intro a b; unfold pair_of; subst hEq; tauto

theorem ext_link (c : Prop) [Decidable c] (t : List cputopo_arm) (cpuid cpu : Nat)
    (h1 : cpuid < t.length) (h2 : cpu < t.length) :
    Ext t
      (if c then
        let t1 := set_core_sibling t cpu cpuid
        let t2 := if cpu ≠ cpuid then set_core_sibling t1 cpuid cpu else t1
        if (topo_at t2 cpuid).core_id = (topo_at t2 cpu).core_id then
          let t3 := set_thread_sibling t2 cpu cpuid
          if cpu ≠ cpuid then set_thread_sibling t3 cpuid cpu else t3
        else t2
      else t)
      (fun a b => c ∧ pair_of cpuid cpu a b)
      (fun a b => (c ∧ (topo_at t cpuid).core_id = (topo_at t cpu).core_id)
        ∧ pair_of cpuid cpu a b) := by
  have e1 := ext_link_core t cpuid cpu h1 h2
  by_cases hc : c
  · simp only [hc, if_true]
    by_cases hk : (topo_at t cpuid).core_id = (topo_at t cpu).core_id
    · have hk2 := hk
      rw [← (e1.2.1 cpuid).2.2.1, ← (e1.2.1 cpu).2.2.1] at hk2
      simp only [hk2, if_true]
      have e2 := ext_link_thread _ cpuid cpu (by rw [e1.1]; exact h1) (by rw [e1.1]; exact h2)
      refine ext_congr (ext_trans e1 e2) ?_ ?_
      · intro a b; simp [hc]
      · intro a b; simp [hc, hk]
    · have hk2 := hk
      rw [← (e1.2.1 cpuid).2.2.1, ← (e1.2.1 cpu).2.2.1] at hk2
      simp only [hk2, if_false]
      refine ext_congr e1 ?_ ?_
      · intro a b; simp [hc]
      · intro a b; simp [hk]
  · simp only [hc, if_false]
    refine ext_congr (ext_refl t) ?_ ?_
    · intro a b; simp [hc]
    · intro a b; simp [hc]

theorem mask_body_ext (par : Bool) (t : List cputopo_arm) (cpuid cpu : Nat)
    (h1 : cpuid < t.length) (h2 : cpu < t.length) :
    Ext t (mask_body par cpuid t cpu)
      (fun a b => joinC par t cpuid cpu ∧ pair_of cpuid cpu a b)
      (fun a b => joinT par t cpuid cpu ∧ pair_of cpuid cpu a b) := by
  cases par
  · refine ext_congr (ext_link ((topo_at t cpuid).socket_id = (topo_at t cpu).socket_id)
      t cpuid cpu h1 h2) ?_ ?_
    · intro a b; simp [joinC]
    · intro a b; simp [joinT, joinC]
  · refine ext_congr (ext_link ((topo_at t cpuid).socket_id = (topo_at t cpu).socket_id
      ∧ cpuid &&& 0x1 = cpu &&& 0x1) t cpuid cpu h1 h2) ?_ ?_
    · intro a b; simp [joinC]
    · intro a b; simp [joinT, joinC]

/-! ## The loops -/

theorem mask_loop_ext (par : Bool) (cpuid : Nat) (l : List Nat) :
    ∀ t : List cputopo_arm, cpuid < t.length → (∀ x ∈ l, x < t.length) →
    Ext t (l.foldl (mask_body par cpuid) t)
      (fun a b => ∃ cpu ∈ l, joinC par t cpuid cpu ∧ pair_of cpuid cpu a b)
      (fun a b => ∃ cpu ∈ l, joinT par t cpuid cpu ∧ pair_of cpuid cpu a b) := by
  induction l with
  | nil =>
    intro t _ _
    refine ext_congr (ext_refl t) ?_ ?_
    · intro a b; simp
    · intro a b; simp
  | cons x xs ih =>
    intro t h1 hl
    have hx : x < t.length := hl x (List.mem_cons_self x xs)
    have e1 := mask_body_ext par t cpuid x h1 hx
    have e2 := ih (mask_body par cpuid t x) (by rw [e1.1]; exact h1)
      (fun y hy => by rw [e1.1]; exact hl y (List.mem_cons_of_mem x hy))
    rw [List.foldl_cons]
    refine ext_congr (ext_trans e1 e2) ?_ ?_
    · intro a b
      simp only [List.mem_cons, joinC_ext e1]
      constructor
      · rintro (h | ⟨cpu, hc, h⟩)
        · exact ⟨x, Or.inl rfl, h⟩
        · exact ⟨cpu, Or.inr hc, h⟩
      · rintro ⟨cpu, hc | hc, h⟩
        · subst hc; exact Or.inl h
        · exact Or.inr ⟨cpu, hc, h⟩
    · intro a b
      simp only [List.mem_cons, joinT_ext e1]
      constructor
      · rintro (h | ⟨cpu, hc, h⟩)
        · exact ⟨x, Or.inl rfl, h⟩
        · exact ⟨cpu, Or.inr hc, h⟩
      · rintro ⟨cpu, hc | hc, h⟩
        · subst hc; exact Or.inl h
        · exact Or.inr ⟨cpu, hc, h⟩

theorem rebuild_loop_ext (m : Bool) (l : List Nat) (l2 : List Nat) :
    ∀ t : List cputopo_arm, (∀ x ∈ l, x < t.length) → (∀ x ∈ l2, x < t.length) →
    Ext t (l2.foldl (fun t cpuid => l.foldl (mask_body (par_of m t cpuid) cpuid) t) t)
      (fun a b => ∃ cpuid ∈ l2, ∃ cpu ∈ l,
        joinC (par_of m t cpuid) t cpuid cpu ∧ pair_of cpuid cpu a b)
      (fun a b => ∃ cpuid ∈ l2, ∃ cpu ∈ l,
        joinT (par_of m t cpuid) t cpuid cpu ∧ pair_of cpuid cpu a b) := by
  induction l2 with
  | nil =>
    intro t _ _
    refine ext_congr (ext_refl t) ?_ ?_
    · intro a b; simp
    · intro a b; simp
  | cons x xs ih =>
    intro t hl hl2
    have hx : x < t.length := hl2 x (List.mem_cons_self x xs)
    have e1 := mask_loop_ext (par_of m t x) x l t hx hl
    have e2 := ih (l.foldl (mask_body (par_of m t x) x) t)
      (fun y hy => by rw [e1.1]; exact hl y hy)
      (fun y hy => by rw [e1.1]; exact hl2 y (List.mem_cons_of_mem x hy))
    rw [List.foldl_cons]
    refine ext_congr (ext_trans e1 e2) ?_ ?_
    · intro a b
      simp only [List.mem_cons, joinC_ext e1, par_of_ext e1]
      constructor
      · rintro (h | ⟨c, hc, h⟩)
        · exact ⟨x, Or.inl rfl, h⟩
        · exact ⟨c, Or.inr hc, h⟩
      · rintro ⟨c, hc | hc, h⟩
        · subst hc; exact Or.inl h
        · exact Or.inr ⟨c, hc, h⟩
    · intro a b
      simp only [List.mem_cons, joinT_ext e1, par_of_ext e1]
      constructor
      · rintro (h | ⟨c, hc, h⟩)
        · exact ⟨x, Or.inl rfl, h⟩
        · exact ⟨c, Or.inr hc, h⟩
      · rintro ⟨c, hc | hc, h⟩
        · subst hc; exact Or.inl h
        · exact Or.inr ⟨c, hc, h⟩

/-! ## The routines of topology.c as instances of the generic loops -/

theorem mem_possible_lt (cfg : Config) (c : Nat) (h : c ∈ possible_cpus cfg) :
    c < cfg.nr_cpu_ids := by
  unfold possible_cpus at h
  rw [List.mem_filter, List.mem_range] at h
  exact h.1

theorem default_mask_ext (cfg : Config) (cpuid : Nat) (t : List cputopo_arm)
    (hN : cfg.nr_cpu_ids ≤ t.length) (hc : cpuid < t.length) :
    Ext t (default_cpu_topology_mask cfg cpuid t)
      (fun a b => ∃ cpu ∈ possible_cpus cfg, joinC false t cpuid cpu ∧ pair_of cpuid cpu a b)
      (fun a b => ∃ cpu ∈ possible_cpus cfg, joinT false t cpuid cpu ∧ pair_of cpuid cpu a b) :=
  mask_loop_ext false cpuid (possible_cpus cfg) t hc
    (fun x hx => lt_of_lt_of_le (mem_possible_lt cfg x hx) hN)

theorem update_mask_eq (cfg : Config) (mc : Nat) (t : List cputopo_arm) :
    update_cpu_topology_mask cfg mc t =
      (possible_cpus cfg).foldl (fun t cpuid => (possible_cpus cfg).foldl
        (mask_body (par_of (decide (mc = POWERSAVINGS_BALANCE_NONE)) t cpuid) cpuid) t) t := by
  unfold update_cpu_topology_mask
  by_cases h : mc = POWERSAVINGS_BALANCE_NONE
  · simp only [h, if_true, normal_cpu_topology_mask, par_of, decide_True, Bool.not_true,
      Bool.false_and]
    rfl
  · simp only [h, if_false, par_of, decide_False, Bool.not_false, Bool.true_and]
    congr 1
    funext t cpuid
    unfold update_cpu_topology_mask_body
    by_cases hid : (topo_at t cpuid).id = (ARM_CORTEX_A9_FAMILY : Int)
    · simp only [hid, if_true, decide_True]
      rfl
    · simp only [hid, if_false, decide_False]
      rfl

theorem update_mask_ext (cfg : Config) (mc : Nat) (t : List cputopo_arm)
    (hN : cfg.nr_cpu_ids ≤ t.length) :
    Ext t (update_cpu_topology_mask cfg mc t)
      (fun a b => ∃ cpuid ∈ possible_cpus cfg, ∃ cpu ∈ possible_cpus cfg,
        joinC (par_of (decide (mc = POWERSAVINGS_BALANCE_NONE)) t cpuid) t cpuid cpu
          ∧ pair_of cpuid cpu a b)
      (fun a b => ∃ cpuid ∈ possible_cpus cfg, ∃ cpu ∈ possible_cpus cfg,
        joinT (par_of (decide (mc = POWERSAVINGS_BALANCE_NONE)) t cpuid) t cpuid cpu
          ∧ pair_of cpuid cpu a b) := by
  rw [update_mask_eq]
  exact rebuild_loop_ext _ (possible_cpus cfg) (possible_cpus cfg) t
    (fun x hx => lt_of_lt_of_le (mem_possible_lt cfg x hx) hN)
    (fun x hx => lt_of_lt_of_le (mem_possible_lt cfg x hx) hN)

theorem clear_loop_spec (l : List Nat) :
    ∀ t : List cputopo_arm, (∀ x ∈ l, x < t.length) →
    (l.foldl clear_cpu_topology_mask_body t).length = t.length ∧
    (∀ x, (topo_at (l.foldl clear_cpu_topology_mask_body t) x).id = (topo_at t x).id ∧
      (topo_at (l.foldl clear_cpu_topology_mask_body t) x).thread_id = (topo_at t x).thread_id ∧
      (topo_at (l.foldl clear_cpu_topology_mask_body t) x).core_id = (topo_at t x).core_id ∧
      (topo_at (l.foldl clear_cpu_topology_mask_body t) x).socket_id = (topo_at t x).socket_id) ∧
    (∀ x ∈ l, (topo_at (l.foldl clear_cpu_topology_mask_body t) x).core_sibling = ∅ ∧
      (topo_at (l.foldl clear_cpu_topology_mask_body t) x).thread_sibling = ∅) ∧
    (∀ x, x ∉ l → topo_at (l.foldl clear_cpu_topology_mask_body t) x = topo_at t x) := by
  induction l with
  | nil =>
    intro t _
    simp
  | cons y ys ih =>
    intro t hl
    have hy : y < t.length := hl y (List.mem_cons_self y ys)
    have hlen : (clear_cpu_topology_mask_body t y).length = t.length := by
      simp [clear_cpu_topology_mask_body]
    have hat : ∀ x, topo_at (clear_cpu_topology_mask_body t y) x =
        if x = y then { topo_at t y with core_sibling := ∅, thread_sibling := ∅ }
        else topo_at t x := by
      intro x
      unfold clear_cpu_topology_mask_body
      rw [topo_at_set t y _ x hy]
    obtain ⟨i1, i2, i3, i4⟩ := ih (clear_cpu_topology_mask_body t y)
      (fun x hx => by rw [hlen]; exact hl x (List.mem_cons_of_mem y hx))
    rw [List.foldl_cons]
    refine ⟨i1.trans hlen, ?_, ?_, ?_⟩
    · intro x
      obtain ⟨p1, p2, p3, p4⟩ := i2 x
      rw [p1, p2, p3, p4, hat x]
      split_ifs with hxy
      · subst hxy; simp
      · simp
    · intro x hx
      by_cases hxs : x ∈ ys
      · exact i3 x hxs
      · have hxy : x = y := by
          rcases List.mem_cons.mp hx with h | h
          · exact h
          · exact absurd h hxs
        rw [i4 x hxs, hat x]
        simp [hxy]
    · intro x hx
      have hxy : x ≠ y := fun h => hx (h ▸ List.mem_cons_self y ys)
      have hxs : x ∉ ys := fun h => hx (List.mem_cons_of_mem y h)
      rw [i4 x hxs, hat x]
      simp [hxy]

theorem init_loop_spec (l : List Nat) :
    ∀ s : KState, (∀ x ∈ l, x < s.cpu_topology.length) →
    (l.foldl init_cpu_topology_body s).cpu_topology.length = s.cpu_topology.length ∧
    (∀ x ∈ l, topo_at (l.foldl init_cpu_topology_body s).cpu_topology x =
        { id := -1, thread_id := -1, core_id := -1, socket_id := -1,
          core_sibling := ∅, thread_sibling := ∅ } ∧
      (l.foldl init_cpu_topology_body s).cpu_scale x = SCHED_POWER_SCALE) ∧
    (∀ x, x ∉ l → topo_at (l.foldl init_cpu_topology_body s).cpu_topology x
        = topo_at s.cpu_topology x ∧
      (l.foldl init_cpu_topology_body s).cpu_scale x = s.cpu_scale x) ∧
    (l.foldl init_cpu_topology_body s).cpu_capacity = s.cpu_capacity ∧
    (l.foldl init_cpu_topology_body s).middle_capacity = s.middle_capacity ∧
    (l.foldl init_cpu_topology_body s).prev_sched_mc_power_savings
      = s.prev_sched_mc_power_savings ∧
    (l.foldl init_cpu_topology_body s).prev_sched_smt_power_savings
      = s.prev_sched_smt_power_savings ∧
    (l.foldl init_cpu_topology_body s).notifier_calls = s.notifier_calls := by
  induction l with
  | nil =>
    intro s _
    simp
  | cons y ys ih =>
    intro s hl
    have hy : y < s.cpu_topology.length := hl y (List.mem_cons_self y ys)
    have hlen : (init_cpu_topology_body s y).cpu_topology.length = s.cpu_topology.length := by
      simp [init_cpu_topology_body]
    obtain ⟨i1, i2, i3, i4, i5, i6, i7, i8⟩ := ih (init_cpu_topology_body s y)
      (fun x hx => by rw [hlen]; exact hl x (List.mem_cons_of_mem y hx))
    rw [List.foldl_cons]
    refine ⟨i1.trans hlen, ?_, ?_, i4, i5, i6, i7, i8⟩
    · intro x hx
      by_cases hxs : x ∈ ys
      · exact i2 x hxs
      · have hxy : x = y := by
          rcases List.mem_cons.mp hx with h | h
          · exact h
          · exact absurd h hxs
        rw [(i3 x hxs).1, (i3 x hxs).2]
        subst hxy
        constructor
        · simp only [init_cpu_topology_body]
          rw [topo_at_set _ x _ x hy]
          simp
        · simp [init_cpu_topology_body]
    · intro x hx
      have hxy : x ≠ y := fun h => hx (h ▸ List.mem_cons_self y ys)
      have hxs : x ∉ ys := fun h => hx (List.mem_cons_of_mem y h)
      rw [(i3 x hxs).1, (i3 x hxs).2]
      constructor
      · simp only [init_cpu_topology_body]
        rw [topo_at_set _ y _ x hy]
        simp [hxy]
      · simp [init_cpu_topology_body, hxy]

theorem parse_dt_frame (cfg : Config) (alloc_ok : Bool) (nodes : List device_node)
    (s s1 : KState) (h : parse_dt_topology cfg alloc_ok nodes s = some s1) :
    s1.cpu_topology = s.cpu_topology ∧ s1.cpu_scale = s.cpu_scale ∧
    s1.prev_sched_mc_power_savings = s.prev_sched_mc_power_savings ∧
    s1.prev_sched_smt_power_savings = s.prev_sched_smt_power_savings ∧
    s1.notifier_calls = s.notifier_calls := by
  unfold parse_dt_topology at h
  simp only [] at h
  split at h
  · exact absurd h (by simp)
  · split at h
    · exact absurd h (by simp)
    · split_ifs at h
      · split at h
        · exact absurd h (by simp)
        · injection h with h; subst h; simp
      · injection h with h; subst h; simp
      · injection h with h; subst h; simp

/-! ## Invariants of the sibling sets -/

theorem pair_of_symm (cpuid cpu a b : Nat) : pair_of cpuid cpu a b ↔ pair_of cpuid cpu b a := by
  unfold pair_of
  tauto

theorem pair_of_self (c : Nat) : pair_of c c c c := by
  unfold pair_of
  exact Or.inl ⟨rfl, rfl⟩

theorem joinT_self (par : Bool) (t : List cputopo_arm) (c : Nat) : joinT par t c c := by
  unfold joinT joinC
  exact ⟨⟨rfl, fun _ => rfl⟩, rfl⟩

theorem decode_mpidr_core_id (mpidr_reg midr_reg : Nat) (e : cputopo_arm) :
    (decode_mpidr mpidr_reg midr_reg e).core_id ≠ -1 := by
  unfold decode_mpidr
  simp only []
  split_ifs <;> simp

theorem decode_mpidr_masks (mpidr_reg midr_reg : Nat) (e : cputopo_arm) :
    (decode_mpidr mpidr_reg midr_reg e).core_sibling = e.core_sibling ∧
    (decode_mpidr mpidr_reg midr_reg e).thread_sibling = e.thread_sibling := by
  unfold decode_mpidr
  simp only []
  split_ifs <;> simp

/-- What `store_cpu_topology` does to the table of an undiscovered cpu. -/
theorem store_undiscovered (cfg : Config) (cpuid mpidr_reg midr_reg : Nat) (s : KState)
    (hN : cfg.nr_cpu_ids ≤ s.cpu_topology.length) (hc : cpuid ∈ possible_cpus cfg)
    (hu : (topo_at s.cpu_topology cpuid).core_id = -1) :
    ∃ C T : Nat → Nat → Prop,
      (∀ a b, C a b ↔ C b a) ∧ (∀ a b, T a b ↔ T b a) ∧ (∀ a b, T a b → C a b) ∧
      C cpuid cpuid ∧ T cpuid cpuid ∧
      (store_cpu_topology cfg cpuid mpidr_reg midr_reg s).cpu_topology.length
        = s.cpu_topology.length ∧
      (∀ x, x ≠ cpuid →
        (topo_at (store_cpu_topology cfg cpuid mpidr_reg midr_reg s).cpu_topology x).core_id
          = (topo_at s.cpu_topology x).core_id) ∧
      (topo_at (store_cpu_topology cfg cpuid mpidr_reg midr_reg s).cpu_topology cpuid).core_id
        ≠ -1 ∧
      (∀ a b, b ∈ (topo_at (store_cpu_topology cfg cpuid mpidr_reg midr_reg s).cpu_topology
          a).core_sibling ↔ b ∈ (topo_at s.cpu_topology a).core_sibling ∨ C a b) ∧
      (∀ a b, b ∈ (topo_at (store_cpu_topology cfg cpuid mpidr_reg midr_reg s).cpu_topology
          a).thread_sibling ↔ b ∈ (topo_at s.cpu_topology a).thread_sibling ∨ T a b) := by
  have hlt : cpuid < s.cpu_topology.length := lt_of_lt_of_le (mem_possible_lt cfg cpuid hc) hN
  have hst : (store_cpu_topology cfg cpuid mpidr_reg midr_reg s).cpu_topology =
      default_cpu_topology_mask cfg cpuid (s.cpu_topology.set cpuid
        (decode_mpidr mpidr_reg midr_reg (topo_at s.cpu_topology cpuid))) := by
    unfold store_cpu_topology
    simp [hu]
  have hat := fun x => topo_at_set s.cpu_topology cpuid
    (decode_mpidr mpidr_reg midr_reg (topo_at s.cpu_topology cpuid)) x hlt
  have e := default_mask_ext cfg cpuid (s.cpu_topology.set cpuid
    (decode_mpidr mpidr_reg midr_reg (topo_at s.cpu_topology cpuid)))
    (by simpa using hN) (by simpa using hlt)
  rw [← hst] at e
  obtain ⟨e1, e2, e3, e4⟩ := e
  refine ⟨fun a b => ∃ cpu ∈ possible_cpus cfg, joinC false (s.cpu_topology.set cpuid
      (decode_mpidr mpidr_reg midr_reg (topo_at s.cpu_topology cpuid))) cpuid cpu
        ∧ pair_of cpuid cpu a b,
    fun a b => ∃ cpu ∈ possible_cpus cfg, joinT false (s.cpu_topology.set cpuid
      (decode_mpidr mpidr_reg midr_reg (topo_at s.cpu_topology cpuid))) cpuid cpu
        ∧ pair_of cpuid cpu a b, ?_, ?_, ?_, ?_, ?_, ?_, ?_, ?_, ?_, ?_⟩
  · intro a b
    simp only [pair_of_symm cpuid _ a b]
  · intro a b
    simp only [pair_of_symm cpuid _ a b]
  · rintro a b ⟨cpu, h1, h2, h3⟩
    exact ⟨cpu, h1, h2.1, h3⟩
  · exact ⟨cpuid, hc, (joinT_self false _ cpuid).1, pair_of_self cpuid⟩
  · exact ⟨cpuid, hc, joinT_self false _ cpuid, pair_of_self cpuid⟩
  · rw [e1]; simp
  · intro x hx
    rw [(e2 x).2.2.1, hat x]
    simp [hx]
  · rw [(e2 cpuid).2.2.1, hat cpuid]
    simp only [if_true]
    exact decode_mpidr_core_id _ _ _
  · intro a b
    rw [e3 a b, hat a]
    split_ifs with ha
    · rw [(decode_mpidr_masks _ _ _).1, ha]
    · rfl
  · intro a b
    rw [e4 a b, hat a]
    split_ifs with ha
    · rw [(decode_mpidr_masks _ _ _).2, ha]
    · rfl

theorem store_discovered (cfg : Config) (cpuid mpidr_reg midr_reg : Nat) (s : KState)
    (hd : (topo_at s.cpu_topology cpuid).core_id ≠ -1) :
    store_cpu_topology cfg cpuid mpidr_reg midr_reg s = s := by
  unfold store_cpu_topology
  simp [hd]

theorem need_update_iff (mc smt : Nat) (s : KState) :
    (need_topology_update mc smt s).1 = false ↔
      (s.prev_sched_mc_power_savings = mc ∧ s.prev_sched_smt_power_savings = smt) := by
  unfold need_topology_update
  simp [Nat.xor_eq_zero]

theorem arch_update_noop (cfg : Config) (mc smt : Nat) (s : KState)
    (h : s.prev_sched_mc_power_savings = mc ∧ s.prev_sched_smt_power_savings = smt) :
    arch_update_cpu_topology cfg mc smt s = (0, s) := by
  have h1 := (need_update_iff mc smt s).mpr h
  unfold arch_update_cpu_topology
  simp only [h1, if_true]
  unfold need_topology_update
  obtain ⟨h2, h3⟩ := h
  subst h2 h3
  rfl

theorem arch_update_rebuild (cfg : Config) (mc smt : Nat) (s : KState)
    (h : ¬ (s.prev_sched_mc_power_savings = mc ∧ s.prev_sched_smt_power_savings = smt)) :
    arch_update_cpu_topology cfg mc smt s =
      (1, { s with
        prev_sched_mc_power_savings := mc,
        prev_sched_smt_power_savings := smt,
        cpu_topology := update_cpu_topology_mask cfg mc
          (clear_cpu_topology_mask cfg s.cpu_topology),
        notifier_calls := s.notifier_calls ++ [mc] }) := by
  have h1 : ¬ (need_topology_update mc smt s).1 = false :=
    fun hh => h ((need_update_iff mc smt s).mp hh)
  unfold arch_update_cpu_topology
  simp only [h1, if_false]
  rfl

theorem arch_update_ret (cfg : Config) (mc smt : Nat) (s : KState)
    (h : (arch_update_cpu_topology cfg mc smt s).1 = 1) :
    ¬ (s.prev_sched_mc_power_savings = mc ∧ s.prev_sched_smt_power_savings = smt) := by
  intro hh
  rw [arch_update_noop cfg mc smt s hh] at h
  simp at h

/-- What a rebuild leaves in the sibling sets of the possible cpus. -/
theorem rebuild_spec (cfg : Config) (mc : Nat) (t : List cputopo_arm)
    (hN : cfg.nr_cpu_ids ≤ t.length) :
    (update_cpu_topology_mask cfg mc (clear_cpu_topology_mask cfg t)).length = t.length ∧
    (∀ x, (topo_at (update_cpu_topology_mask cfg mc (clear_cpu_topology_mask cfg t)) x).id
        = (topo_at t x).id ∧
      (topo_at (update_cpu_topology_mask cfg mc (clear_cpu_topology_mask cfg t)) x).thread_id
        = (topo_at t x).thread_id ∧
      (topo_at (update_cpu_topology_mask cfg mc (clear_cpu_topology_mask cfg t)) x).core_id
        = (topo_at t x).core_id ∧
      (topo_at (update_cpu_topology_mask cfg mc (clear_cpu_topology_mask cfg t)) x).socket_id
        = (topo_at t x).socket_id) ∧
    (∀ a ∈ possible_cpus cfg, ∀ b,
      (b ∈ (topo_at (update_cpu_topology_mask cfg mc (clear_cpu_topology_mask cfg t))
          a).core_sibling ↔
        ∃ cpuid ∈ possible_cpus cfg, ∃ cpu ∈ possible_cpus cfg,
          joinC (par_of (decide (mc = POWERSAVINGS_BALANCE_NONE)) t cpuid) t cpuid cpu
            ∧ pair_of cpuid cpu a b) ∧
      (b ∈ (topo_at (update_cpu_topology_mask cfg mc (clear_cpu_topology_mask cfg t))
          a).thread_sibling ↔
        ∃ cpuid ∈ possible_cpus cfg, ∃ cpu ∈ possible_cpus cfg,
          joinT (par_of (decide (mc = POWERSAVINGS_BALANCE_NONE)) t cpuid) t cpuid cpu
            ∧ pair_of cpuid cpu a b)) := by
  have hb : ∀ x ∈ possible_cpus cfg, x < t.length :=
    fun x hx => lt_of_lt_of_le (mem_possible_lt cfg x hx) hN
  obtain ⟨c1, c2, c3, _⟩ := clear_loop_spec (possible_cpus cfg) t hb
  have e := update_mask_ext cfg mc (clear_cpu_topology_mask cfg t)
    (by unfold clear_cpu_topology_mask; rw [c1]; exact hN)
  obtain ⟨e1, e2, e3, e4⟩ := e
  have hj : ∀ par cpuid cpu, joinC par (clear_cpu_topology_mask cfg t) cpuid cpu
      ↔ joinC par t cpuid cpu := by
    intro par cpuid cpu
    unfold joinC clear_cpu_topology_mask
    rw [(c2 cpuid).2.2.2, (c2 cpu).2.2.2]
  have hjt : ∀ par cpuid cpu, joinT par (clear_cpu_topology_mask cfg t) cpuid cpu
      ↔ joinT par t cpuid cpu := by
    intro par cpuid cpu
    unfold joinT
    rw [hj]
    unfold clear_cpu_topology_mask
    rw [(c2 cpuid).2.2.1, (c2 cpu).2.2.1]
  have hp : ∀ m cpuid, par_of m (clear_cpu_topology_mask cfg t) cpuid = par_of m t cpuid := by
    intro m cpuid
    unfold par_of clear_cpu_topology_mask
    rw [(c2 cpuid).1]
  refine ⟨?_, ?_, ?_⟩
  · rw [e1]; unfold clear_cpu_topology_mask; exact c1
  · intro x
    obtain ⟨p1, p2, p3, p4⟩ := e2 x
    obtain ⟨q1, q2, q3, q4⟩ := c2 x
    unfold clear_cpu_topology_mask at p1 p2 p3 p4
    exact ⟨p1.trans q1, p2.trans q2, p3.trans q3, p4.trans q4⟩
  · intro a ha b
    have hca := c3 a ha
    constructor
    · rw [e3 a b]
      unfold clear_cpu_topology_mask
      rw [hca.1]
      simp only [Finset.not_mem_empty, false_or]
      simp only [← hj, ← hp]
      rfl
    · rw [e4 a b]
      unfold clear_cpu_topology_mask
      rw [hca.2]
      simp only [Finset.not_mem_empty, false_or]
      simp only [← hjt, ← hp]
      rfl

theorem good_init (cfg : Config) (alloc_ok : Bool) (nodes : List device_node)
    (boot s0 : KState) (hN : cfg.nr_cpu_ids ≤ boot.cpu_topology.length)
    (hinit : init_cpu_topology cfg alloc_ok nodes boot = some s0) : Good cfg s0 := by
  unfold init_cpu_topology at hinit
  obtain ⟨f1, _, _, _, _⟩ := parse_dt_frame cfg alloc_ok nodes _ s0 hinit
  obtain ⟨i1, i2, _⟩ := init_loop_spec (possible_cpus cfg) boot
    (fun x hx => lt_of_lt_of_le (mem_possible_lt cfg x hx) hN)
  unfold Good
  rw [f1]
  refine ⟨by rw [i1]; exact hN, ?_, ?_, ?_⟩
  · intro a ha b hb
    rw [(i2 a ha).1, (i2 b hb).1]
    simp
  · intro c hc
    rw [(i2 c hc).1]
  · intro c hc
    rw [(i2 c hc).1]
    simp

theorem good_store (cfg : Config) (cpuid mpidr_reg midr_reg : Nat) (s : KState)
    (hg : Good cfg s) (hc : cpuid ∈ possible_cpus cfg) :
    Good cfg (store_cpu_topology cfg cpuid mpidr_reg midr_reg s) := by
  by_cases hd : (topo_at s.cpu_topology cpuid).core_id = -1
  · obtain ⟨g1, g2, g3, g4⟩ := hg
    obtain ⟨C, T, sC, sT, hTC, _, _, hlen, hother, hself, hcs, hts⟩ :=
      store_undiscovered cfg cpuid mpidr_reg midr_reg s g1 hc hd
    have hCc : C cpuid cpuid := by assumption
    have hTc : T cpuid cpuid := by assumption
    refine ⟨by rw [hlen]; exact g1, ?_, ?_, ?_⟩
    · intro a ha b hb
      rw [hcs, hcs, hts, hts, (g2 a ha b hb).1, (g2 a ha b hb).2, sC a b, sT a b]
      exact ⟨Iff.rfl, Iff.rfl⟩
    · intro c hcp x hx
      rw [hts] at hx
      rw [hcs]
      rcases hx with hx | hx
      · exact Or.inl (g3 c hcp hx)
      · exact Or.inr (hTC c x hx)
    · intro c hcp hdc
      rw [hcs, hts]
      by_cases hcc : c = cpuid
      · subst hcc
        exact ⟨Or.inr hCc, Or.inr hTc⟩
      · rw [hother c hcc] at hdc
        exact ⟨Or.inl (g4 c hcp hdc).1, Or.inl (g4 c hcp hdc).2⟩
  · rw [store_discovered cfg cpuid mpidr_reg midr_reg s hd]
    exact hg

theorem ex_pair_symm (P : Nat → Nat → Prop) (l2 l : List Nat) (a b : Nat) :
    (∃ cpuid ∈ l2, ∃ cpu ∈ l, P cpuid cpu ∧ pair_of cpuid cpu a b) ↔
    (∃ cpuid ∈ l2, ∃ cpu ∈ l, P cpuid cpu ∧ pair_of cpuid cpu b a) := by
  constructor
  · rintro ⟨cpuid, h1, cpu, h2, h3, h4⟩
    exact ⟨cpuid, h1, cpu, h2, h3, (pair_of_symm _ _ _ _).mp h4⟩
  · rintro ⟨cpuid, h1, cpu, h2, h3, h4⟩
    exact ⟨cpuid, h1, cpu, h2, h3, (pair_of_symm _ _ _ _).mp h4⟩

theorem good_update (cfg : Config) (mc smt : Nat) (s : KState) (hg : Good cfg s) :
    Good cfg (arch_update_cpu_topology cfg mc smt s).2 := by
  by_cases h : s.prev_sched_mc_power_savings = mc ∧ s.prev_sched_smt_power_savings = smt
  · rw [arch_update_noop cfg mc smt s h]
    exact hg
  · rw [arch_update_rebuild cfg mc smt s h]
    obtain ⟨g1, _, _, _⟩ := hg
    obtain ⟨r1, _, r3⟩ := rebuild_spec cfg mc s.cpu_topology g1
    refine ⟨by simp only []; rw [r1]; exact g1, ?_, ?_, ?_⟩
    · intro a ha b hb
      simp only []
      rw [(r3 b hb a).1, (r3 a ha b).1, (r3 b hb a).2, (r3 a ha b).2]
      exact ⟨ex_pair_symm _ _ _ b a, ex_pair_symm _ _ _ b a⟩
    · intro c hc x hx
      simp only [] at hx ⊢
      rw [(r3 c hc x).2] at hx
      rw [(r3 c hc x).1]
      obtain ⟨cpuid, h1, cpu, h2, h3, h4⟩ := hx
      exact ⟨cpuid, h1, cpu, h2, h3.1, h4⟩
    · intro c hc _
      simp only []
      rw [(r3 c hc c).1, (r3 c hc c).2]
      exact ⟨⟨c, hc, c, hc, (joinT_self _ _ c).1, pair_of_self c⟩,
        ⟨c, hc, c, hc, joinT_self _ _ c, pair_of_self c⟩⟩

theorem good_run (cfg : Config) (ops : List Op) :
    ∀ s : KState, Good cfg s → (∀ op ∈ ops, valid_op cfg op) → Good cfg (run cfg ops s) := by
  induction ops with
  | nil =>
    intro s hg _
    exact hg
  | cons op rest ih =>
    intro s hg hv
    have hop : valid_op cfg op := hv op (List.mem_cons_self op rest)
    have hrest : ∀ o ∈ rest, valid_op cfg o := fun o ho => hv o (List.mem_cons_of_mem op ho)
    unfold run
    rw [List.foldl_cons]
    cases op with
    | store cpuid mpidr_reg midr_reg =>
      exact ih _ (good_store cfg cpuid mpidr_reg midr_reg s hg hop) hrest
    | update mc smt =>
      exact ih _ (good_update cfg mc smt s hg) hrest

/-! ## The capacity resolver -/

theorem get_u32_property_lt (p : Option of_property) (r : Nat)
    (h : get_u32_property p = some r) : r < 2 ^ 32 := by
  unfold get_u32_property at h
  cases p with
  | none => simp at h
  | some q =>
    simp only [] at h
    split_ifs at h
    injection h with h
    rw [← h]
    exact Nat.mod_lt _ (by norm_num)

theorem find_efficiency_value (cn : device_node) (e : cpu_efficiency)
    (h : find_efficiency cn = some e) : e.efficiency = 3891 ∨ e.efficiency = 2048 := by
  unfold find_efficiency at h
  have hm := List.mem_of_find?_eq_some h
  simp only [table_efficiency, List.mem_cons, List.mem_singleton, List.not_mem_nil,
    or_false] at hm
  rcases hm with hm | hm
  · left; rw [hm]
  · right; rw [hm]

theorem list_set_cases (l : List cpu_capacity) (i j : Nat) (x e : cpu_capacity)
    (h : (l.set i x).get? j = some e) :
    (j = i ∧ e = x) ∨ (j ≠ i ∧ l.get? j = some e) := by
  by_cases hji : j = i
  · left
    subst hji
    simp only [List.get?_eq_getElem?, List.getElem?_set] at h
    by_cases hlt : j < l.length
    · simp [hlt] at h
      exact ⟨rfl, h.symm⟩
    · simp [hlt] at h
  · right
    simp only [List.get?_eq_getElem?, List.getElem?_set] at h
    rw [if_neg (Ne.symm hji)] at h
    simp only [List.get?_eq_getElem?]
    exact ⟨hji, h⟩

theorem write_hwid_capacity (t : Option (List cpu_capacity)) (idx v : Nat)
    (l2 : List cpu_capacity) (h : write_hwid t idx v = some l2) :
    ∃ l, t = some l ∧ ∀ i e, l2.get? i = some e →
      ∃ e0, l.get? i = some e0 ∧ e0.capacity = e.capacity := by
  unfold write_hwid at h
  cases t with
  | none => simp at h
  | some l =>
    simp only [] at h
    cases hg : l.get? idx with
    | none => rw [hg] at h; simp at h
    | some e1 =>
      rw [hg] at h
      simp only [Option.some.injEq] at h
      refine ⟨l, rfl, ?_⟩
      intro i e hi
      rw [← h] at hi
      rcases list_set_cases l idx i _ e hi with ⟨h1, h2⟩ | ⟨_, h2⟩
      · subst h1
        exact ⟨e1, hg, by rw [h2]⟩
      · exact ⟨e, h2, rfl⟩

theorem write_capacity_cases (t : Option (List cpu_capacity)) (idx v : Nat)
    (l2 : List cpu_capacity) (h : write_capacity t idx v = some l2) :
    ∃ l, t = some l ∧ ∀ i e, l2.get? i = some e →
      e.capacity = v ∨ l.get? i = some e := by
  unfold write_capacity at h
  cases t with
  | none => simp at h
  | some l =>
    simp only [] at h
    cases hg : l.get? idx with
    | none => rw [hg] at h; simp at h
    | some e1 =>
      rw [hg] at h
      simp only [Option.some.injEq] at h
      refine ⟨l, rfl, ?_⟩
      intro i e hi
      rw [← h] at hi
      rcases list_set_cases l idx i _ e hi with ⟨_, h2⟩ | ⟨_, h2⟩
      · left; rw [h2]
      · right; exact h2

theorem pinv_loop (npos k : Nat) (nodes : List device_node) :
    ∀ st st1 : ParseState,
    (∀ cn ∈ nodes, ∀ r, get_u32_property cn.clock_frequency = some r → r >>> 20 = k) →
    parse_dt_loop npos nodes st = some st1 → PInv k st → PInv k st1 := by
  induction nodes with
  | nil =>
    intro st st1 _ h hinv
    simp only [parse_dt_loop, Option.some.injEq] at h
    rw [← h]
    exact hinv
  | cons cn rest ih =>
    intro st st1 hn h hinv
    have hrest : ∀ c ∈ rest, ∀ r, get_u32_property c.clock_frequency = some r → r >>> 20 = k :=
      fun c hc => hn c (List.mem_cons_of_mem cn hc)
    unfold parse_dt_loop at h
    split_ifs at h with hbrk
    · simp only [Option.some.injEq] at h
      rw [← h]
      exact hinv
    · cases hfe : find_efficiency cn with
      | none =>
        rw [hfe] at h
        exact ih st st1 hrest h hinv
      | some cpu_eff =>
        rw [hfe] at h
        simp only [] at h
        cases hr : get_u32_property cn.clock_frequency with
        | none =>
          rw [hr] at h
          exact ih st st1 hrest h hinv
        | some rate =>
          rw [hr] at h
          simp only [] at h
          cases hg : get_u32_property cn.reg with
          | none =>
            rw [hg] at h
            exact ih st st1 hrest h hinv
          | some reg =>
            rw [hg] at h
            simp only [] at h
            have hk : rate >>> 20 = k := hn cn (List.mem_cons_self cn rest) rate hr
            have hlt : k < 4096 := by
              have := get_u32_property_lt _ _ hr
              rw [← hk, Nat.shiftRight_eq_div_pow]
              omega
            have heff := find_efficiency_value cn cpu_eff hfe
            have hcap : (rate >>> 20 * cpu_eff.efficiency) % 2 ^ 32 = 2048 * k ∨
                (rate >>> 20 * cpu_eff.efficiency) % 2 ^ 32 = 3891 * k := by
              rw [hk]
              rcases heff with he | he
              · right; rw [he]; omega
              · left; rw [he]; omega
            generalize (rate >>> 20 * cpu_eff.efficiency) % 2 ^ 32 = cap at h hcap
            cases hw1 : write_capacity st.table st.cpu cap with
            | none => rw [hw1] at h; simp at h
            | some t1 =>
              rw [hw1] at h
              simp only [] at h
              cases hw2 : write_hwid (some t1) st.cpu reg with
              | none => rw [hw2] at h; simp at h
              | some t2 =>
                rw [hw2] at h
                simp only [] at h
                refine ih _ st1 hrest h ?_
                obtain ⟨p1, p2, p3⟩ := hinv
                obtain ⟨l0, hl0, hc1⟩ := write_capacity_cases _ _ _ _ hw1
                obtain ⟨l1, hl1, hc2⟩ := write_hwid_capacity _ _ _ _ hw2
                simp only [Option.some.injEq] at hl1
                subst hl1
                refine ⟨?_, ?_, ?_⟩
                · simp only []
                  split_ifs
                  · rcases hcap with hcap | hcap
                    · right; left; exact hcap
                    · right; right; exact hcap
                  · exact p1
                · simp only []
                  split_ifs
                  · rcases hcap with hcap | hcap
                    · right; left; exact hcap
                    · right; right; exact hcap
                  · exact p2
                · intro l hl i e hie
                  simp only [Option.some.injEq] at hl
                  subst hl
                  obtain ⟨e0, he0, hcap0⟩ := hc2 i e hie
                  rw [← hcap0]
                  rcases hc1 i e0 he0 with hnew | hold
                  · right
                    rw [hnew]
                    refine ⟨hcap, hlt, ?_, ?_⟩
                    · simp only []
                      split_ifs with hh
                      · exact le_refl _
                      · exact Nat.le_of_not_lt hh
                    · simp only []
                      split_ifs with hh
                      · exact le_refl _
                      · exact Nat.le_of_not_lt hh
                  · rcases p3 l0 hl0 i e0 hold with hz | ⟨q1, q2, q3, q4⟩
                    · left; exact hz
                    · right
                      refine ⟨q1, q2, ?_, ?_⟩
                      · simp only []
                        split_ifs with hh
                        · exact le_trans (le_of_lt hh) q3
                        · exact q3
                      · simp only []
                        split_ifs with hh
                        · exact le_trans q4 (le_of_lt hh)
                        · exact q4

theorem write_hwid_at (t : Option (List cpu_capacity)) (idx v : Nat)
    (l2 : List cpu_capacity) (h : write_hwid t idx v = some l2) :
    ∃ e, l2.get? idx = some e ∧ e.hwid = v := by
  unfold write_hwid at h
  cases t with
  | none => simp at h
  | some l =>
    simp only [] at h
    cases hg : l.get? idx with
    | none => rw [hg] at h; simp at h
    | some e1 =>
      rw [hg] at h
      simp only [Option.some.injEq] at h
      have hlt : idx < l.length := by
        by_contra hc
        have : l.get? idx = none := by
          simp only [List.get?_eq_getElem?]
          exact List.getElem?_eq_none (Nat.le_of_not_lt hc)
        rw [this] at hg
        exact absurd hg (by simp)
      refine ⟨{ e1 with hwid := v }, ?_, rfl⟩
      rw [← h]
      simp [List.getElem?_set, hlt]

/-- The outcome of `parse_dt_topology` in terms of the state its loop ends in. -/
theorem parse_dt_cases (cfg : Config) (alloc_ok : Bool) (nodes : List device_node)
    (s0 s : KState) (h : parse_dt_topology cfg alloc_ok nodes s0 = some s) :
    ∃ st : ParseState,
      parse_dt_loop (num_possible_cpus cfg) nodes
        { cpu := 0, min_capacity := ULONG_MINUS_ONE, max_capacity := 0,
          table := if alloc_ok then some (List.replicate cfg.nr_cpu_ids ⟨0, 0⟩) else none }
        = some st ∧
      (∀ l, s.cpu_capacity = some l → ∃ l0, st.table = some l0 ∧
        ∀ i e, l.get? i = some e → ∃ e0, l0.get? i = some e0 ∧ e0.capacity = e.capacity) ∧
      s.middle_capacity =
        (if st.min_capacity = st.max_capacity then s0.middle_capacity
         else if (4 * st.max_capacity) % 2 ^ 32
            < (3 * ((st.max_capacity + st.min_capacity) % 2 ^ 32)) % 2 ^ 32 then
           ((st.min_capacity + st.max_capacity) % 2 ^ 32) >>> (SCHED_POWER_SHIFT + 1)
         else (((st.max_capacity / 3) >>> (SCHED_POWER_SHIFT - 1)) + 1) % 2 ^ 32) ∧
      (st.min_capacity = st.max_capacity →
        ∃ l e, s.cpu_capacity = some l ∧ l.get? 0 = some e ∧ e.hwid = ULONG_MINUS_ONE) ∧
      s.cpu_scale = s0.cpu_scale := by
  unfold parse_dt_topology at h
  simp only [] at h
  cases hloop : parse_dt_loop (num_possible_cpus cfg) nodes
      { cpu := 0, min_capacity := ULONG_MINUS_ONE, max_capacity := 0,
        table := if alloc_ok then some (List.replicate cfg.nr_cpu_ids ⟨0, 0⟩) else none } with
  | none => rw [hloop] at h; simp at h
  | some st =>
    rw [hloop] at h
    simp only [] at h
    refine ⟨st, rfl, ?_⟩
    have hsame : ∀ l0 : List cpu_capacity, ∀ i e, l0.get? i = some e →
        ∃ e0, l0.get? i = some e0 ∧ e0.capacity = e.capacity :=
      fun l0 i e hie => ⟨e, hie, rfl⟩
    have key : ∀ t1 : Option (List cpu_capacity),
        (∀ l, t1 = some l → ∃ l0, st.table = some l0 ∧
          ∀ i e, l.get? i = some e → ∃ e0, l0.get? i = some e0 ∧ e0.capacity = e.capacity) →
        (if st.min_capacity = st.max_capacity then
          match write_hwid t1 0 ULONG_MINUS_ONE with
          | none => none
          | some t2 => some { s0 with cpu_capacity := some t2 }
        else if (4 * st.max_capacity) % 2 ^ 32
            < (3 * ((st.max_capacity + st.min_capacity) % 2 ^ 32)) % 2 ^ 32 then
          some { s0 with
            cpu_capacity := t1,
            middle_capacity :=
              ((st.min_capacity + st.max_capacity) % 2 ^ 32) >>> (SCHED_POWER_SHIFT + 1) }
        else
          some { s0 with
            cpu_capacity := t1,
            middle_capacity :=
              (((st.max_capacity / 3) >>> (SCHED_POWER_SHIFT - 1)) + 1) % 2 ^ 32 }) = some s →
        (∀ l, s.cpu_capacity = some l → ∃ l0, st.table = some l0 ∧
          ∀ i e, l.get? i = some e → ∃ e0, l0.get? i = some e0 ∧ e0.capacity = e.capacity) ∧
        s.middle_capacity =
          (if st.min_capacity = st.max_capacity then s0.middle_capacity
           else if (4 * st.max_capacity) % 2 ^ 32
              < (3 * ((st.max_capacity + st.min_capacity) % 2 ^ 32)) % 2 ^ 32 then
             ((st.min_capacity + st.max_capacity) % 2 ^ 32) >>> (SCHED_POWER_SHIFT + 1)
           else (((st.max_capacity / 3) >>> (SCHED_POWER_SHIFT - 1)) + 1) % 2 ^ 32) ∧
        (st.min_capacity = st.max_capacity →
          ∃ l e, s.cpu_capacity = some l ∧ l.get? 0 = some e ∧ e.hwid = ULONG_MINUS_ONE) ∧
        s.cpu_scale = s0.cpu_scale := by
      intro t1 ht1 hres
      split_ifs at hres with hmm hsmall
      · cases hw : write_hwid t1 0 ULONG_MINUS_ONE with
        | none => rw [hw] at hres; simp at hres
        | some t2 =>
          rw [hw] at hres
          simp only [Option.some.injEq] at hres
          subst hres
          obtain ⟨l1, hl1, hc⟩ := write_hwid_capacity _ _ _ _ hw
          obtain ⟨e, he1, he2⟩ := write_hwid_at _ _ _ _ hw
          refine ⟨?_, by rw [if_pos hmm], fun _ => ⟨t2, e, rfl, he1, he2⟩, rfl⟩
          intro l hl
          simp only [Option.some.injEq] at hl
          subst hl
          obtain ⟨l0, hl0, hc0⟩ := ht1 l1 hl1
          refine ⟨l0, hl0, ?_⟩
          intro i e hie
          obtain ⟨e1, h1, h2⟩ := hc i e hie
          obtain ⟨e0, h3, h4⟩ := hc0 i e1 h1
          exact ⟨e0, h3, h4.trans h2⟩
      · simp only [Option.some.injEq] at hres
        subst hres
        exact ⟨ht1, by rw [if_neg hmm, if_pos hsmall], fun hh => absurd hh hmm, rfl⟩
      · simp only [Option.some.injEq] at hres
        subst hres
        exact ⟨ht1, by rw [if_neg hmm, if_neg hsmall], fun hh => absurd hh hmm, rfl⟩
    by_cases hcpu : st.cpu < num_possible_cpus cfg
    · rw [if_pos hcpu] at h
      cases hw : write_hwid st.table st.cpu ULONG_MINUS_ONE with
      | none => rw [hw] at h; simp at h
      | some t1 =>
        rw [hw] at h
        refine key (some t1) ?_ h
        intro l hl
        simp only [Option.some.injEq] at hl
        subst hl
        obtain ⟨l0, hl0, hc⟩ := write_hwid_capacity _ _ _ _ hw
        exact ⟨l0, hl0, hc⟩
    · rw [if_neg hcpu] at h
      refine key st.table ?_ h
      intro l hl
      exact ⟨l, hl, hsame l⟩

theorem pinv_start (k n : Nat) (alloc_ok : Bool) :
    PInv k
      ({ cpu := 0, min_capacity := ULONG_MINUS_ONE, max_capacity := 0,
         table := if alloc_ok then some (List.replicate n ⟨0, 0⟩) else none } : ParseState) := by
  refine ⟨Or.inl rfl, Or.inl rfl, ?_⟩
  intro l hl i e hie
  left
  cases alloc_ok with
  | false => simp at hl
  | true =>
    simp only [if_true, Option.some.injEq] at hl
    subst hl
    simp only [List.get?_eq_getElem?, List.getElem?_replicate] at hie
    split_ifs at hie
    simp only [Option.some.injEq] at hie
    rw [← hie]

theorem ratio_arith (k m : Nat) (hm : 0 < m) :
    2048 * (3891 * k / m) < 3891 * (2048 * k / m) + 3891 ∧
    3891 * (2048 * k / m) < 2048 * (3891 * k / m) + 3891 := by
  have h1 : 3891 * k / m * m ≤ 3891 * k := Nat.div_mul_le_self _ _
  have h2 : 3891 * k < m * (3891 * k / m + 1) := Nat.lt_mul_div_succ _ hm
  have h3 : 2048 * k / m * m ≤ 2048 * k := Nat.div_mul_le_self _ _
  have h4 : 2048 * k < m * (2048 * k / m + 1) := Nat.lt_mul_div_succ _ hm
  generalize 3891 * k / m = a at *
  generalize 2048 * k / m = b at *
  constructor
  · by_contra hc
    push_neg at hc
    have : (3891 * b + 3891) * m ≤ 2048 * a * m := Nat.mul_le_mul_right m hc
    nlinarith
  · by_contra hc
    push_neg at hc
    have : (2048 * a + 3891) * m ≤ 3891 * b * m := Nat.mul_le_mul_right m hc
    nlinarith

/-- On a system where both raw capacities `3891 * k` and `2048 * k` are in the
array, `middle_capacity` is `(5939 * k) >> 11`. -/
theorem parse_dt_two_classes (cfg : Config) (alloc_ok : Bool) (nodes : List device_node)
    (s0 s : KState) (k : Nat) (hk : 1 ≤ k)
    (hn : ∀ cn ∈ nodes, ∀ r, get_u32_property cn.clock_frequency = some r → r >>> 20 = k)
    (h : parse_dt_topology cfg alloc_ok nodes s0 = some s)
    (l : List cpu_capacity) (hl : s.cpu_capacity = some l)
    (i_hi i_lo : Nat) (e_hi e_lo : cpu_capacity)
    (h1 : l.get? i_hi = some e_hi) (h2 : e_hi.capacity = 3891 * k)
    (h3 : l.get? i_lo = some e_lo) (h4 : e_lo.capacity = 2048 * k) :
    s.middle_capacity = 5939 * k / 2048 ∧ k < 4096 := by
  obtain ⟨st, hloop, hcap, hmid, _, _⟩ := parse_dt_cases cfg alloc_ok nodes s0 s h
  obtain ⟨p1, p2, p3⟩ := pinv_loop _ k nodes _ st hn hloop (pinv_start k _ alloc_ok)
  obtain ⟨l0, hl0, hc⟩ := hcap l hl
  obtain ⟨a, ha1, ha2⟩ := hc i_hi e_hi h1
  obtain ⟨b, hb1, hb2⟩ := hc i_lo e_lo h3
  have qa := p3 l0 hl0 i_hi a ha1
  have qb := p3 l0 hl0 i_lo b hb1
  rw [ha2, h2] at qa
  rw [hb2, h4] at qb
  have hU : ULONG_MINUS_ONE = 4294967295 := by decide
  rw [hU] at p1
  have hlt : k < 4096 := by
    rcases qa with qa | ⟨_, q, _, _⟩
    · omega
    · exact q
  have hmin : st.min_capacity = 2048 * k := by
    rcases qa with qa | ⟨_, _, qa3, _⟩
    · omega
    · rcases qb with qb | ⟨_, _, qb3, _⟩
      · omega
      · omega
  have hmax : st.max_capacity = 3891 * k := by
    rcases qa with qa | ⟨_, _, _, qa4⟩
    · omega
    · omega
  rw [hmid, hmin, hmax]
  refine ⟨?_, hlt⟩
  have hne : ¬ (2048 * k = 3891 * k) := by omega
  have hsm : (4 * (3891 * k)) % 2 ^ 32 < (3 * ((3891 * k + 2048 * k) % 2 ^ 32)) % 2 ^ 32 := by
    have e1 : (4 * (3891 * k)) % 2 ^ 32 = 15564 * k := by omega
    have e2 : (3891 * k + 2048 * k) % 2 ^ 32 = 5939 * k := by omega
    have e3 : (3 * (5939 * k)) % 2 ^ 32 = 17817 * k := by omega
    rw [e1, e2, e3]
    omega
  rw [if_neg hne, if_pos hsm]
  simp only [SCHED_POWER_SHIFT, Nat.shiftRight_eq_div_pow]
  omega

theorem update_cpu_power_found (cfg : Config) (cpu hwid i : Nat) (s : KState)
    (l : List cpu_capacity) (e : cpu_capacity)
    (hfound : update_cpu_power_loop s.cpu_capacity (hwid % 2 ^ 32) (num_possible_cpus cfg) 0
      = Lookup.found i)
    (hl : s.cpu_capacity = some l) (he : l.get? i = some e) (hm : s.middle_capacity ≠ 0) :
    update_cpu_power cfg cpu hwid s
      = some (set_power_scale cpu (e.capacity / s.middle_capacity) s) := by
  unfold update_cpu_power
  rw [hl] at hfound
  simp only [hl, hfound, he, hm, if_false]

/-- On a homogeneous system `update_cpu_power` returns at once, leaving the
state as it is, for every hardware id other than the end marker. -/
theorem homogeneous_keeps_scale (cfg : Config) (alloc_ok : Bool) (nodes : List device_node)
    (s0 s : KState) (st : ParseState)
    (hparse : parse_dt_topology cfg alloc_ok nodes s0 = some s)
    (hloop : parse_dt_loop (num_possible_cpus cfg) nodes
      { cpu := 0, min_capacity := ULONG_MINUS_ONE, max_capacity := 0,
        table := if alloc_ok then some (List.replicate cfg.nr_cpu_ids ⟨0, 0⟩) else none }
      = some st)
    (hmm : st.min_capacity = st.max_capacity)
    (cpu hwid : Nat) (hne : hwid % 2 ^ 32 ≠ ULONG_MINUS_ONE) :
    update_cpu_power cfg cpu hwid s = some s := by
  obtain ⟨st1, hloop1, _, _, hsent, _⟩ := parse_dt_cases cfg alloc_ok nodes s0 s hparse
  rw [hloop] at hloop1
  simp only [Option.some.injEq] at hloop1
  subst hloop1
  obtain ⟨l, e, hl, he, hh⟩ := hsent hmm
  unfold update_cpu_power
  cases hn : num_possible_cpus cfg with
  | zero => simp [update_cpu_power_loop]
  | succ n =>
    have hx : update_cpu_power_loop s.cpu_capacity (hwid % 2 ^ 32) (n + 1) 0
        = Lookup.returned := by
      unfold update_cpu_power_loop
      rw [hl]
      simp only [he, hh]
      rw [if_neg (Ne.symm hne)]
      simp
    simp only [hx]

/-! ## The claims -/

/-- C1. Sibling symmetry is an invariant of the topology table: from the state
left by `init_cpu_topology`, after any sequence of `store_cpu_topology` calls
for possible cpus (any register values) and `arch_update_cpu_topology` calls
(any flag values), for all possible cpus `a` and `b`, `a` is a core sibling of
`b` exactly when `b` is a core sibling of `a`, and likewise for thread
siblings. -/
theorem sibling_symmetry_invariant (cfg : Config) (alloc_ok : Bool) (nodes : List device_node)
    (boot s0 : KState) (ops : List Op)
    (hN : cfg.nr_cpu_ids ≤ boot.cpu_topology.length)
    (hinit : init_cpu_topology cfg alloc_ok nodes boot = some s0)
    (hops : ∀ op ∈ ops, valid_op cfg op)
    (a b : Nat) (ha : a ∈ possible_cpus cfg) (hb : b ∈ possible_cpus cfg) :
    (a ∈ (topo_at (run cfg ops s0).cpu_topology b).core_sibling
      ↔ b ∈ (topo_at (run cfg ops s0).cpu_topology a).core_sibling) ∧
    (a ∈ (topo_at (run cfg ops s0).cpu_topology b).thread_sibling
      ↔ b ∈ (topo_at (run cfg ops s0).cpu_topology a).thread_sibling) :=
  (good_run cfg ops s0 (good_init cfg alloc_ok nodes boot s0 hN hinit) hops).2.1 a ha b hb

theorem sibling_symmetry_invariant_witness :
    (0 ∈ (topo_at (run demo_cfg demo_ops demo_init).cpu_topology 2).core_sibling
      ↔ 2 ∈ (topo_at (run demo_cfg demo_ops demo_init).cpu_topology 0).core_sibling) ∧
    (0 ∈ (topo_at (run demo_cfg demo_ops demo_init).cpu_topology 2).thread_sibling
      ↔ 2 ∈ (topo_at (run demo_cfg demo_ops demo_init).cpu_topology 0).thread_sibling) :=
  sibling_symmetry_invariant demo_cfg true [] demo_boot demo_init demo_ops (by decide) (by rfl)
    (by simp [demo_ops, valid_op, possible_cpus, demo_cfg]) 0 2 (by decide) (by decide)

/-- C2. Subset law as an invariant: from the state left by `init_cpu_topology`,
after any sequence of `store_cpu_topology` and `arch_update_cpu_topology`
calls, the thread siblings of every possible cpu are among its core
siblings. -/
theorem thread_subset_core_invariant (cfg : Config) (alloc_ok : Bool)
    (nodes : List device_node) (boot s0 : KState) (ops : List Op)
    (hN : cfg.nr_cpu_ids ≤ boot.cpu_topology.length)
    (hinit : init_cpu_topology cfg alloc_ok nodes boot = some s0)
    (hops : ∀ op ∈ ops, valid_op cfg op)
    (c : Nat) (hc : c ∈ possible_cpus cfg) :
    (topo_at (run cfg ops s0).cpu_topology c).thread_sibling
      ⊆ (topo_at (run cfg ops s0).cpu_topology c).core_sibling :=
  (good_run cfg ops s0 (good_init cfg alloc_ok nodes boot s0 hN hinit) hops).2.2.1 c hc

theorem thread_subset_core_invariant_witness :
    (topo_at (run demo_cfg demo_ops demo_init).cpu_topology 1).thread_sibling
      ⊆ (topo_at (run demo_cfg demo_ops demo_init).cpu_topology 1).core_sibling :=
  thread_subset_core_invariant demo_cfg true [] demo_boot demo_init demo_ops (by decide)
    (by rfl) (by simp [demo_ops, valid_op, possible_cpus, demo_cfg]) 1 (by decide)

/-- C3. Self-membership: after a call of `arch_update_cpu_topology` that
rebuilds (returns 1), whatever the flags and the family ids, every discovered
possible cpu is in its own core_sibling and thread_sibling sets; the same holds
for `c` right after `store_cpu_topology(c)`, both when the call discovers `c`
in an arbitrary table and in every state reached from `init_cpu_topology`. -/
theorem self_membership (cfg : Config) :
    (∀ (s : KState) (mc smt c : Nat), cfg.nr_cpu_ids ≤ s.cpu_topology.length →
      (arch_update_cpu_topology cfg mc smt s).1 = 1 → c ∈ possible_cpus cfg →
      (topo_at (arch_update_cpu_topology cfg mc smt s).2.cpu_topology c).core_id ≠ -1 →
      c ∈ (topo_at (arch_update_cpu_topology cfg mc smt s).2.cpu_topology c).core_sibling ∧
      c ∈ (topo_at (arch_update_cpu_topology cfg mc smt s).2.cpu_topology c).thread_sibling) ∧
    (∀ (s : KState) (c mpidr_reg midr_reg : Nat), cfg.nr_cpu_ids ≤ s.cpu_topology.length →
      c ∈ possible_cpus cfg → (topo_at s.cpu_topology c).core_id = -1 →
      c ∈ (topo_at (store_cpu_topology cfg c mpidr_reg midr_reg s).cpu_topology c).core_sibling ∧
      c ∈ (topo_at (store_cpu_topology cfg c mpidr_reg midr_reg s).cpu_topology
        c).thread_sibling) ∧
    (∀ (alloc_ok : Bool) (nodes : List device_node) (boot s0 : KState) (ops : List Op)
      (c mpidr_reg midr_reg : Nat), cfg.nr_cpu_ids ≤ boot.cpu_topology.length →
      init_cpu_topology cfg alloc_ok nodes boot = some s0 →
      (∀ op ∈ ops, valid_op cfg op) → c ∈ possible_cpus cfg →
      c ∈ (topo_at (store_cpu_topology cfg c mpidr_reg midr_reg
        (run cfg ops s0)).cpu_topology c).core_sibling ∧
      c ∈ (topo_at (store_cpu_topology cfg c mpidr_reg midr_reg
        (run cfg ops s0)).cpu_topology c).thread_sibling) := by
  refine ⟨?_, ?_, ?_⟩
  · intro s mc smt c hN hret hc _
    rw [arch_update_rebuild cfg mc smt s (arch_update_ret cfg mc smt s hret)]
    obtain ⟨_, _, r3⟩ := rebuild_spec cfg mc s.cpu_topology hN
    simp only []
    rw [(r3 c hc c).1, (r3 c hc c).2]
    exact ⟨⟨c, hc, c, hc, (joinT_self _ _ c).1, pair_of_self c⟩,
      ⟨c, hc, c, hc, joinT_self _ _ c, pair_of_self c⟩⟩
  · intro s c mpidr_reg midr_reg hN hc hu
    obtain ⟨C, T, _, _, _, hCc, hTc, _, _, _, hcs, hts⟩ :=
      store_undiscovered cfg c mpidr_reg midr_reg s hN hc hu
    rw [hcs, hts]
    exact ⟨Or.inr hCc, Or.inr hTc⟩
  · intro alloc_ok nodes boot s0 ops c mpidr_reg midr_reg hN hinit hops hc
    have hg := good_run cfg ops s0 (good_init cfg alloc_ok nodes boot s0 hN hinit) hops
    by_cases hd : (topo_at (run cfg ops s0).cpu_topology c).core_id = -1
    · obtain ⟨C, T, _, _, _, hCc, hTc, _, _, _, hcs, hts⟩ :=
        store_undiscovered cfg c mpidr_reg midr_reg (run cfg ops s0) hg.1 hc hd
      rw [hcs, hts]
      exact ⟨Or.inr hCc, Or.inr hTc⟩
    · rw [store_discovered cfg c mpidr_reg midr_reg _ hd]
      exact hg.2.2.2 c hc hd

theorem self_membership_witness :
    (2 ∈ (topo_at (arch_update_cpu_topology demo_cfg 1 0
        (demo_state 0)).2.cpu_topology 2).core_sibling ∧
      2 ∈ (topo_at (arch_update_cpu_topology demo_cfg 1 0
        (demo_state 0)).2.cpu_topology 2).thread_sibling) ∧
    (3 ∈ (topo_at (store_cpu_topology demo_cfg 3 0x80000003 0x410FC090
        demo_init).cpu_topology 3).core_sibling ∧
      3 ∈ (topo_at (store_cpu_topology demo_cfg 3 0x80000003 0x410FC090
        demo_init).cpu_topology 3).thread_sibling) ∧
    (1 ∈ (topo_at (store_cpu_topology demo_cfg 1 0x80000001 0x410FC090
        (run demo_cfg demo_ops demo_init)).cpu_topology 1).core_sibling ∧
      1 ∈ (topo_at (store_cpu_topology demo_cfg 1 0x80000001 0x410FC090
        (run demo_cfg demo_ops demo_init)).cpu_topology 1).thread_sibling) :=
  ⟨(self_membership demo_cfg).1 (demo_state 0) 1 0 2 (by decide) (by decide) (by decide)
      (by decide),
    (self_membership demo_cfg).2.1 demo_init 3 0x80000003 0x410FC090 (by decide) (by decide)
      (by decide),
    (self_membership demo_cfg).2.2 true [] demo_boot demo_init demo_ops 1 0x80000001 0x410FC090
      (by decide) (by rfl) (by simp [demo_ops, valid_op, possible_cpus, demo_cfg]) (by decide)⟩

/-- C4. Full rebuild under the default strategy: when every possible cpu is
discovered and multi-core power saving is off, after a call of
`arch_update_cpu_topology` that rebuilds, whatever the sets held before, for
all possible cpus `a` and `b`, `b` is a core sibling of `a` exactly when both
have the same socket id, and a thread sibling exactly when both have the same
socket id and the same core id. On four cpus of socket 0 with core ids 0 to 3,
cpu 0 gets the core siblings 0, 1, 2, 3 and the thread sibling 0. -/
theorem full_rebuild_default :
    (∀ (cfg : Config) (s : KState) (mc smt a b : Nat),
      cfg.nr_cpu_ids ≤ s.cpu_topology.length →
      (∀ c ∈ possible_cpus cfg, (topo_at s.cpu_topology c).core_id ≠ -1) →
      mc = POWERSAVINGS_BALANCE_NONE →
      (arch_update_cpu_topology cfg mc smt s).1 = 1 →
      a ∈ possible_cpus cfg → b ∈ possible_cpus cfg →
      (b ∈ (topo_at (arch_update_cpu_topology cfg mc smt s).2.cpu_topology a).core_sibling ↔
        (topo_at (arch_update_cpu_topology cfg mc smt s).2.cpu_topology b).socket_id
          = (topo_at (arch_update_cpu_topology cfg mc smt s).2.cpu_topology a).socket_id) ∧
      (b ∈ (topo_at (arch_update_cpu_topology cfg mc smt s).2.cpu_topology a).thread_sibling ↔
        (topo_at (arch_update_cpu_topology cfg mc smt s).2.cpu_topology b).socket_id
          = (topo_at (arch_update_cpu_topology cfg mc smt s).2.cpu_topology a).socket_id ∧
        (topo_at (arch_update_cpu_topology cfg mc smt s).2.cpu_topology b).core_id
          = (topo_at (arch_update_cpu_topology cfg mc smt s).2.cpu_topology a).core_id)) ∧
    ((topo_at (arch_update_cpu_topology demo_cfg POWERSAVINGS_BALANCE_NONE 1
        (demo_state 0)).2.cpu_topology 0).core_sibling = {0, 1, 2, 3} ∧
      (topo_at (arch_update_cpu_topology demo_cfg POWERSAVINGS_BALANCE_NONE 1
        (demo_state 0)).2.cpu_topology 0).thread_sibling = {0}) := by
  refine ⟨?_, by decide⟩
  intro cfg s mc smt a b hN _ hmc hret ha hb
  rw [arch_update_rebuild cfg mc smt s (arch_update_ret cfg mc smt s hret)]
  obtain ⟨_, r2, r3⟩ := rebuild_spec cfg mc s.cpu_topology hN
  simp only []
  rw [(r3 a ha b).1, (r3 a ha b).2, (r2 a).2.2.2, (r2 b).2.2.2, (r2 a).2.2.1, (r2 b).2.2.1]
  have hp : ∀ cpuid, par_of (decide (mc = POWERSAVINGS_BALANCE_NONE)) s.cpu_topology cpuid
      = false := by
    intro cpuid
    simp [par_of, hmc]
  simp only [hp]
  constructor
  · constructor
    · rintro ⟨cpuid, _, cpu, _, hj, hpair⟩
      rcases hpair with ⟨h1, h2⟩ | ⟨h1, h2⟩
      · subst h1 h2; exact hj.1
      · subst h1 h2; exact hj.1.symm
    · intro h
      exact ⟨b, hb, a, ha, ⟨h, fun hh => absurd hh (by decide)⟩, Or.inl ⟨rfl, rfl⟩⟩
  · constructor
    · rintro ⟨cpuid, _, cpu, _, hj, hpair⟩
      rcases hpair with ⟨h1, h2⟩ | ⟨h1, h2⟩
      · subst h1 h2; exact ⟨hj.1.1, hj.2⟩
      · subst h1 h2; exact ⟨hj.1.1.symm, hj.2.symm⟩
    · intro h
      exact ⟨b, hb, a, ha, ⟨⟨h.1, fun hh => absurd hh (by decide)⟩, h.2⟩, Or.inl ⟨rfl, rfl⟩⟩

theorem full_rebuild_default_witness :
    (3 ∈ (topo_at (arch_update_cpu_topology demo_cfg 0 1
        (demo_state 0)).2.cpu_topology 1).core_sibling ↔
      (topo_at (arch_update_cpu_topology demo_cfg 0 1 (demo_state 0)).2.cpu_topology 3).socket_id
        = (topo_at (arch_update_cpu_topology demo_cfg 0 1
          (demo_state 0)).2.cpu_topology 1).socket_id) ∧
    (3 ∈ (topo_at (arch_update_cpu_topology demo_cfg 0 1
        (demo_state 0)).2.cpu_topology 1).thread_sibling ↔
      (topo_at (arch_update_cpu_topology demo_cfg 0 1 (demo_state 0)).2.cpu_topology 3).socket_id
        = (topo_at (arch_update_cpu_topology demo_cfg 0 1
          (demo_state 0)).2.cpu_topology 1).socket_id ∧
      (topo_at (arch_update_cpu_topology demo_cfg 0 1 (demo_state 0)).2.cpu_topology 3).core_id
        = (topo_at (arch_update_cpu_topology demo_cfg 0 1
          (demo_state 0)).2.cpu_topology 1).core_id) :=
  full_rebuild_default.1 demo_cfg (demo_state 0) 0 1 1 3 (by decide) (by decide) (by decide)
    (by decide) (by decide) (by decide)

/-- C5. Full rebuild under the clustered strategy: when every possible cpu is
discovered with the family id 0x410FC090 and multi-core power saving has just
been switched on (last seen off, now on), `arch_update_cpu_topology` rebuilds
and afterwards, for all possible cpus `a` and `b`, `b` is a core sibling of
`a` exactly when both have the same socket id and the same parity. On four
cpus of socket 0, cpu 0 gets the core siblings 0, 2 and cpu 1 gets 1, 3. -/
theorem full_rebuild_clustered :
    (∀ (cfg : Config) (s : KState) (mc smt a b : Nat),
      cfg.nr_cpu_ids ≤ s.cpu_topology.length →
      (∀ c ∈ possible_cpus cfg, (topo_at s.cpu_topology c).core_id ≠ -1 ∧
        (topo_at s.cpu_topology c).id = (ARM_CORTEX_A9_FAMILY : Int)) →
      s.prev_sched_mc_power_savings = POWERSAVINGS_BALANCE_NONE →
      mc ≠ POWERSAVINGS_BALANCE_NONE →
      a ∈ possible_cpus cfg → b ∈ possible_cpus cfg →
      (arch_update_cpu_topology cfg mc smt s).1 = 1 ∧
      (b ∈ (topo_at (arch_update_cpu_topology cfg mc smt s).2.cpu_topology a).core_sibling ↔
        (topo_at (arch_update_cpu_topology cfg mc smt s).2.cpu_topology b).socket_id
          = (topo_at (arch_update_cpu_topology cfg mc smt s).2.cpu_topology a).socket_id ∧
        a &&& 1 = b &&& 1)) ∧
    ((topo_at (arch_update_cpu_topology demo_cfg 1 0
        (demo_state ARM_CORTEX_A9_FAMILY)).2.cpu_topology 0).core_sibling = {0, 2} ∧
      (topo_at (arch_update_cpu_topology demo_cfg 1 0
        (demo_state ARM_CORTEX_A9_FAMILY)).2.cpu_topology 1).core_sibling = {1, 3}) := by
  refine ⟨?_, by decide⟩
  intro cfg s mc smt a b hN hfam hprev hmc ha hb
  have hch : ¬ (s.prev_sched_mc_power_savings = mc ∧ s.prev_sched_smt_power_savings = smt) := by
    rintro ⟨h1, _⟩
    exact hmc (h1 ▸ hprev)
  rw [arch_update_rebuild cfg mc smt s hch]
  obtain ⟨_, r2, r3⟩ := rebuild_spec cfg mc s.cpu_topology hN
  refine ⟨rfl, ?_⟩
  simp only []
  rw [(r3 a ha b).1, (r2 a).2.2.2, (r2 b).2.2.2]
  have hp : ∀ cpuid ∈ possible_cpus cfg,
      par_of (decide (mc = POWERSAVINGS_BALANCE_NONE)) s.cpu_topology cpuid = true := by
    intro cpuid hcpuid
    simp [par_of, hmc, (hfam cpuid hcpuid).2]
  constructor
  · rintro ⟨cpuid, hcpuid, cpu, _, hj, hpair⟩
    rw [hp cpuid hcpuid] at hj
    rcases hpair with ⟨h1, h2⟩ | ⟨h1, h2⟩
    · subst h1 h2; exact ⟨hj.1, (hj.2 rfl).symm⟩
    · subst h1 h2; exact ⟨hj.1.symm, hj.2 rfl⟩
  · intro h
    refine ⟨b, hb, a, ha, ?_, Or.inl ⟨rfl, rfl⟩⟩
    rw [hp b hb]
    exact ⟨h.1, fun _ => h.2.symm⟩

theorem full_rebuild_clustered_witness :
    (arch_update_cpu_topology demo_cfg 2 0 (demo_state ARM_CORTEX_A9_FAMILY)).1 = 1 ∧
    (2 ∈ (topo_at (arch_update_cpu_topology demo_cfg 2 0
        (demo_state ARM_CORTEX_A9_FAMILY)).2.cpu_topology 0).core_sibling ↔
      (topo_at (arch_update_cpu_topology demo_cfg 2 0
        (demo_state ARM_CORTEX_A9_FAMILY)).2.cpu_topology 2).socket_id
        = (topo_at (arch_update_cpu_topology demo_cfg 2 0
          (demo_state ARM_CORTEX_A9_FAMILY)).2.cpu_topology 0).socket_id ∧
      0 &&& 1 = 2 &&& 1) :=
  full_rebuild_clustered.1 demo_cfg (demo_state ARM_CORTEX_A9_FAMILY) 2 0 0 2 (by decide)
    (by decide) (by decide) (by decide) (by decide) (by decide)

/-- C6. The capacity bound `0 < capacity <= 1536` does not hold for every
provider input. With a Cortex-A15 at 567 MHz and a Cortex-A7 at 359 MHz the
shifts round `middle_capacity` down to 1367 and cpu 0 gets 1537; with a
Cortex-A15 whose clock-frequency is below `1 << 20` Hz the raw capacity is 0
and cpu 0 gets 0. -/
theorem capacity_bound_violated :
    resolved_capacity demo_cfg true demo_nodes_rounding demo_boot 0 0 = some 1537 ∧
    resolved_capacity demo_cfg true demo_nodes_slow demo_boot 0 0 = some 0 := by
  decide

/-- C7. On a homogeneous system `update_cpu_power` does not keep the baseline
for every hardware id: the id `0xFFFFFFFF` equals the end marker stored in
`cpu_capacity[0].hwid`, the search stops on entry 0 and the raw capacity of
that entry divided by 1 is written. -/
theorem homogeneous_sentinel_match :
    resolved_capacity demo_cfg true demo_nodes_homogeneous demo_boot 0 0xFFFFFFFF
      = some 3708123 ∧
    SCHED_POWER_SCALE = 1024 := by
  decide

/-- C8. Heterogeneous ratio: on a system whose cpu nodes all run at one clock
frequency `f` with `f >> 20 >= 1`, a cpu resolved to an entry of raw capacity
`3891 * (f >> 20)` and a cpu resolved to an entry of raw capacity
`2048 * (f >> 20)` both get their raw capacity divided by the same nonzero
`middle_capacity`, and the two results `c_hi`, `c_lo` keep the ratio 3891:2048
up to rounding: `|2048 * c_hi - 3891 * c_lo| < 3891`. -/
theorem heterogeneous_ratio (cfg : Config) (alloc_ok : Bool) (nodes : List device_node)
    (boot s : KState) (f c_hi h_hi c_lo h_lo i_hi i_lo : Nat)
    (l : List cpu_capacity) (e_hi e_lo : cpu_capacity)
    (hf : 1 ≤ f >>> 20)
    (hnodes : ∀ cn ∈ nodes, ∀ r, get_u32_property cn.clock_frequency = some r → r = f)
    (hinit : init_cpu_topology cfg alloc_ok nodes boot = some s)
    (htab : s.cpu_capacity = some l)
    (hfound_hi : update_cpu_power_loop s.cpu_capacity (h_hi % 2 ^ 32) (num_possible_cpus cfg) 0
      = Lookup.found i_hi)
    (hent_hi : l.get? i_hi = some e_hi) (hcap_hi : e_hi.capacity = 3891 * (f >>> 20))
    (hfound_lo : update_cpu_power_loop s.cpu_capacity (h_lo % 2 ^ 32) (num_possible_cpus cfg) 0
      = Lookup.found i_lo)
    (hent_lo : l.get? i_lo = some e_lo) (hcap_lo : e_lo.capacity = 2048 * (f >>> 20)) :
    ∃ s_hi s_lo : KState,
      update_cpu_power cfg c_hi h_hi s = some s_hi ∧
      update_cpu_power cfg c_lo h_lo s = some s_lo ∧
      0 < s.middle_capacity ∧
      arch_scale_freq_power s_hi c_hi = 3891 * (f >>> 20) / s.middle_capacity ∧
      arch_scale_freq_power s_lo c_lo = 2048 * (f >>> 20) / s.middle_capacity ∧
      |(2048 : Int) * (arch_scale_freq_power s_hi c_hi : Int)
        - 3891 * (arch_scale_freq_power s_lo c_lo : Int)| < 3891 := by
  unfold init_cpu_topology at hinit
  have hn : ∀ cn ∈ nodes, ∀ r, get_u32_property cn.clock_frequency = some r →
      r >>> 20 = f >>> 20 := fun cn hcn r hr => by rw [hnodes cn hcn r hr]
  obtain ⟨hmid, _⟩ := parse_dt_two_classes cfg alloc_ok nodes _ s (f >>> 20) hf hn hinit l htab
    i_hi i_lo e_hi e_lo hent_hi hcap_hi hent_lo hcap_lo
  have hpos : 0 < s.middle_capacity := by
    rw [hmid]
    omega
  have hne : s.middle_capacity ≠ 0 := Nat.pos_iff_ne_zero.mp hpos
  refine ⟨_, _, update_cpu_power_found cfg c_hi h_hi i_hi s l e_hi hfound_hi htab hent_hi hne,
    update_cpu_power_found cfg c_lo h_lo i_lo s l e_lo hfound_lo htab hent_lo hne, hpos, ?_, ?_, ?_⟩
  · simp [arch_scale_freq_power, set_power_scale, hcap_hi]
  · simp [arch_scale_freq_power, set_power_scale, hcap_lo]
  · have hr := ratio_arith (f >>> 20) s.middle_capacity hpos
    simp only [arch_scale_freq_power, set_power_scale, Function.update_same, hcap_hi, hcap_lo]
    rw [abs_lt]
    constructor <;> omega

theorem heterogeneous_ratio_witness :
    ∃ s_hi s_lo : KState,
      update_cpu_power demo_cfg 0 0 demo_big_little = some s_hi ∧
      update_cpu_power demo_cfg 2 2 demo_big_little = some s_lo ∧
      0 < demo_big_little.middle_capacity ∧
      arch_scale_freq_power s_hi 0
        = 3891 * (1000000000 >>> 20) / demo_big_little.middle_capacity ∧
      arch_scale_freq_power s_lo 2
        = 2048 * (1000000000 >>> 20) / demo_big_little.middle_capacity ∧
      |(2048 : Int) * (arch_scale_freq_power s_hi 0 : Int)
        - 3891 * (arch_scale_freq_power s_lo 2 : Int)| < 3891 :=
  heterogeneous_ratio demo_cfg true demo_nodes_big_little demo_boot demo_big_little 1000000000
    0 0 2 2 0 2
    [⟨0, 3708123⟩, ⟨1, 3708123⟩, ⟨2, 1951744⟩, ⟨3, 1951744⟩] ⟨0, 3708123⟩ ⟨2, 1951744⟩
    (by decide)
    (by
      intro cn hcn r hr
      simp only [demo_nodes_big_little, List.mem_cons, List.mem_singleton, List.not_mem_nil,
        or_false] at hcn
      rcases hcn with h | h | h | h <;>
        · subst h
          simp only [demo_node, get_u32_property] at hr
          simp at hr
          omega)
    (by rfl) (by rfl) (by rfl) (by rfl) (by decide) (by rfl) (by rfl) (by decide)

/-- C9. Write-once discovery: for every table and every possible cpu `c`, after
`store_cpu_topology(c)` the core id of `c` is not -1, whatever the MPIDR
value, so a second `store_cpu_topology(c)` with any register values leaves the
whole state unchanged: the identity fields of `c` and every sibling set. -/
theorem store_cpu_topology_write_once (cfg : Config) (s : KState)
    (c mpidr_reg midr_reg mpidr_reg2 midr_reg2 : Nat)
    (hN : cfg.nr_cpu_ids ≤ s.cpu_topology.length) (hc : c ∈ possible_cpus cfg) :
    (topo_at (store_cpu_topology cfg c mpidr_reg midr_reg s).cpu_topology c).core_id ≠ -1 ∧
    store_cpu_topology cfg c mpidr_reg2 midr_reg2 (store_cpu_topology cfg c mpidr_reg midr_reg s)
      = store_cpu_topology cfg c mpidr_reg midr_reg s := by
  have h1 : (topo_at (store_cpu_topology cfg c mpidr_reg midr_reg s).cpu_topology c).core_id
      ≠ -1 := by
    by_cases hd : (topo_at s.cpu_topology c).core_id = -1
    · obtain ⟨C, T, _, _, _, _, _, _, _, hself, _, _⟩ :=
        store_undiscovered cfg c mpidr_reg midr_reg s hN hc hd
      exact hself
    · rw [store_discovered cfg c mpidr_reg midr_reg s hd]
      exact hd
  exact ⟨h1, store_discovered cfg c mpidr_reg2 midr_reg2 _ h1⟩

theorem store_cpu_topology_write_once_witness :
    (topo_at (store_cpu_topology demo_cfg 2 0x80000102 0x410FC090
      demo_init).cpu_topology 2).core_id ≠ -1 ∧
    store_cpu_topology demo_cfg 2 0x81000001 0x412FC0F1
        (store_cpu_topology demo_cfg 2 0x80000102 0x410FC090 demo_init)
      = store_cpu_topology demo_cfg 2 0x80000102 0x410FC090 demo_init :=
  store_cpu_topology_write_once demo_cfg demo_init 2 0x80000102 0x410FC090 0x81000001
    0x412FC0F1 (by decide) (by decide)

/-- C10. Policy no-op: when both power-saving flags equal their last-observed
values, `arch_update_cpu_topology` returns 0, leaves the topology table (every
identity field and every sibling set) and the snapshot unchanged, and calls no
observer. -/
theorem arch_update_cpu_topology_noop (cfg : Config) (s : KState) (mc smt : Nat)
    (hmc : s.prev_sched_mc_power_savings = mc) (hsmt : s.prev_sched_smt_power_savings = smt) :
    (arch_update_cpu_topology cfg mc smt s).1 = 0 ∧
    (arch_update_cpu_topology cfg mc smt s).2.cpu_topology = s.cpu_topology ∧
    (arch_update_cpu_topology cfg mc smt s).2.notifier_calls = s.notifier_calls ∧
    (arch_update_cpu_topology cfg mc smt s).2 = s := by
  rw [arch_update_noop cfg mc smt s ⟨hmc, hsmt⟩]
  exact ⟨rfl, rfl, rfl, rfl⟩

theorem arch_update_cpu_topology_noop_witness :
    (arch_update_cpu_topology demo_cfg 0 0 (demo_state 0)).1 = 0 ∧
    (arch_update_cpu_topology demo_cfg 0 0 (demo_state 0)).2.cpu_topology
      = (demo_state 0).cpu_topology ∧
    (arch_update_cpu_topology demo_cfg 0 0 (demo_state 0)).2.notifier_calls
      = (demo_state 0).notifier_calls ∧
    (arch_update_cpu_topology demo_cfg 0 0 (demo_state 0)).2 = demo_state 0 :=
  arch_update_cpu_topology_noop demo_cfg (demo_state 0) 0 0 (by rfl) (by rfl)

/-- C11. Policy change detection: `arch_update_cpu_topology` returns 1 exactly
when one of the two power-saving flags differs from its last-observed value,
and 0 otherwise; when it returns 1 the masks are cleared and rebuilt and the
observer chain is called exactly once, with the current multi-core flag as
argument. After any call the snapshot equals the current flags, and a repeated
call with the same flags returns 0. -/
theorem arch_update_cpu_topology_detects (cfg : Config) (s : KState) (mc smt : Nat) :
    ((arch_update_cpu_topology cfg mc smt s).1 = 1 ↔
      (s.prev_sched_mc_power_savings ≠ mc ∨ s.prev_sched_smt_power_savings ≠ smt)) ∧
    ((arch_update_cpu_topology cfg mc smt s).1 = 0 ↔
      (s.prev_sched_mc_power_savings = mc ∧ s.prev_sched_smt_power_savings = smt)) ∧
    ((arch_update_cpu_topology cfg mc smt s).1 = 1 →
      (arch_update_cpu_topology cfg mc smt s).2.cpu_topology
        = update_cpu_topology_mask cfg mc (clear_cpu_topology_mask cfg s.cpu_topology) ∧
      (arch_update_cpu_topology cfg mc smt s).2.notifier_calls = s.notifier_calls ++ [mc]) ∧
    ((arch_update_cpu_topology cfg mc smt s).2.prev_sched_mc_power_savings = mc ∧
      (arch_update_cpu_topology cfg mc smt s).2.prev_sched_smt_power_savings = smt) ∧
    (arch_update_cpu_topology cfg mc smt (arch_update_cpu_topology cfg mc smt s).2).1 = 0 := by
  by_cases h : s.prev_sched_mc_power_savings = mc ∧ s.prev_sched_smt_power_savings = smt
  · have e1 := arch_update_noop cfg mc smt s h
    have r1 : (arch_update_cpu_topology cfg mc smt s).1 = 0 := by rw [e1]
    have r2 : (arch_update_cpu_topology cfg mc smt s).2 = s := by rw [e1]
    rw [r1, r2]
    refine ⟨⟨fun hh => ?_, fun hh => ?_⟩, ⟨fun _ => h, fun _ => rfl⟩, fun hh => ?_, h, r1⟩
    · exact absurd hh (by decide)
    · rcases hh with hh | hh
      · exact absurd h.1 hh
      · exact absurd h.2 hh
    · exact absurd hh (by decide)
  · have e1 := arch_update_rebuild cfg mc smt s h
    have r1 : (arch_update_cpu_topology cfg mc smt s).1 = 1 := by rw [e1]
    have r3 : (arch_update_cpu_topology cfg mc smt s).2.prev_sched_mc_power_savings = mc := by
      rw [e1]
    have r4 : (arch_update_cpu_topology cfg mc smt s).2.prev_sched_smt_power_savings = smt := by
      rw [e1]
    have r5 : (arch_update_cpu_topology cfg mc smt s).2.cpu_topology
        = update_cpu_topology_mask cfg mc (clear_cpu_topology_mask cfg s.cpu_topology) := by
      rw [e1]
    have r6 : (arch_update_cpu_topology cfg mc smt s).2.notifier_calls
        = s.notifier_calls ++ [mc] := by
      rw [e1]
    have r7 := arch_update_noop cfg mc smt (arch_update_cpu_topology cfg mc smt s).2 ⟨r3, r4⟩
    refine ⟨⟨fun _ => ?_, fun _ => r1⟩, ⟨fun hh => ?_, fun hh => absurd hh h⟩,
      fun _ => ⟨r5, r6⟩, ⟨r3, r4⟩, by rw [r7]⟩
    · by_contra hc
      push_neg at hc
      exact h hc
    · rw [r1] at hh
      exact absurd hh (by decide)

theorem arch_update_cpu_topology_detects_witness :
    (arch_update_cpu_topology demo_cfg 2 0 (demo_state 0)).2.cpu_topology
      = update_cpu_topology_mask demo_cfg 2
          (clear_cpu_topology_mask demo_cfg (demo_state 0).cpu_topology) ∧
    (arch_update_cpu_topology demo_cfg 2 0 (demo_state 0)).2.notifier_calls
      = (demo_state 0).notifier_calls ++ [2] :=
  (arch_update_cpu_topology_detects demo_cfg (demo_state 0) 2 0).2.2.1 (by decide)

/-- C13. Affinity decoding: for an undiscovered possible cpu `c` and every
32-bit MPIDR value `m`, with level n being `(m >> 8n) & 0xFF`,
`store_cpu_topology(c)` writes: thread id level 0, core id level 1 and socket
id level 2 when the multiprocessor layout is present and bit 24 is set; thread
id -1, core id level 0 and socket id level 1 when the layout is present and
bit 24 is clear; thread id -1, core id 0 and socket id -1 when the layout is
absent. -/
theorem store_cpu_topology_decodes (cfg : Config) (s : KState) (c m v : Nat)
    (hN : cfg.nr_cpu_ids ≤ s.cpu_topology.length) (hc : c ∈ possible_cpus cfg)
    (hu : (topo_at s.cpu_topology c).core_id = -1) (hm : m < 2 ^ 32) :
    (m &&& 0xC0000000 = 0x80000000 → m &&& 0x1000000 ≠ 0 →
      (topo_at (store_cpu_topology cfg c m v s).cpu_topology c).thread_id
        = ((m &&& 0xFF : Nat) : Int) ∧
      (topo_at (store_cpu_topology cfg c m v s).cpu_topology c).core_id
        = (((m >>> 8) &&& 0xFF : Nat) : Int) ∧
      (topo_at (store_cpu_topology cfg c m v s).cpu_topology c).socket_id
        = (((m >>> 16) &&& 0xFF : Nat) : Int)) ∧
    (m &&& 0xC0000000 = 0x80000000 → m &&& 0x1000000 = 0 →
      (topo_at (store_cpu_topology cfg c m v s).cpu_topology c).thread_id = -1 ∧
      (topo_at (store_cpu_topology cfg c m v s).cpu_topology c).core_id
        = ((m &&& 0xFF : Nat) : Int) ∧
      (topo_at (store_cpu_topology cfg c m v s).cpu_topology c).socket_id
        = (((m >>> 8) &&& 0xFF : Nat) : Int)) ∧
    (m &&& 0xC0000000 ≠ 0x80000000 →
      (topo_at (store_cpu_topology cfg c m v s).cpu_topology c).thread_id = -1 ∧
      (topo_at (store_cpu_topology cfg c m v s).cpu_topology c).core_id = 0 ∧
      (topo_at (store_cpu_topology cfg c m v s).cpu_topology c).socket_id = -1) := by
  have hlt : c < s.cpu_topology.length := lt_of_lt_of_le (mem_possible_lt cfg c hc) hN
  have hst : (store_cpu_topology cfg c m v s).cpu_topology =
      default_cpu_topology_mask cfg c (s.cpu_topology.set c
        (decode_mpidr m v (topo_at s.cpu_topology c))) := by
    unfold store_cpu_topology
    simp [hu]
  have e := default_mask_ext cfg c (s.cpu_topology.set c
    (decode_mpidr m v (topo_at s.cpu_topology c))) (by simpa using hN) (by simpa using hlt)
  rw [← hst] at e
  obtain ⟨_, e2, _, _⟩ := e
  obtain ⟨_, p2, p3, p4⟩ := e2 c
  rw [p2, p3, p4, topo_at_set _ c _ c hlt]
  simp only [if_true]
  have hmod : m % 2 ^ 32 = m := Nat.mod_eq_of_lt hm
  unfold decode_mpidr
  simp only [hmod, MPIDR_SMP_BITMASK, MPIDR_SMP_VALUE, MPIDR_MT_BITMASK, MPIDR_AFFINITY_LEVEL,
    Nat.mul_zero, Nat.shiftRight_zero, Nat.mul_one]
  refine ⟨?_, ?_, ?_⟩
  · intro h1 h2
    simp [h1, h2]
  · intro h1 h2
    simp [h1, h2]
  · intro h1
    simp [h1]

theorem store_cpu_topology_decodes_witness :
    ((topo_at (store_cpu_topology demo_cfg 2 0x81030201 0x410FC090 demo_init).cpu_topology
        2).thread_id = ((0x81030201 &&& 0xFF : Nat) : Int) ∧
      (topo_at (store_cpu_topology demo_cfg 2 0x81030201 0x410FC090 demo_init).cpu_topology
        2).core_id = (((0x81030201 >>> 8) &&& 0xFF : Nat) : Int) ∧
      (topo_at (store_cpu_topology demo_cfg 2 0x81030201 0x410FC090 demo_init).cpu_topology
        2).socket_id = (((0x81030201 >>> 16) &&& 0xFF : Nat) : Int)) ∧
    ((topo_at (store_cpu_topology demo_cfg 2 0x80000102 0x410FC090 demo_init).cpu_topology
        2).thread_id = -1 ∧
      (topo_at (store_cpu_topology demo_cfg 2 0x80000102 0x410FC090 demo_init).cpu_topology
        2).core_id = ((0x80000102 &&& 0xFF : Nat) : Int) ∧
      (topo_at (store_cpu_topology demo_cfg 2 0x80000102 0x410FC090 demo_init).cpu_topology
        2).socket_id = (((0x80000102 >>> 8) &&& 0xFF : Nat) : Int)) ∧
    ((topo_at (store_cpu_topology demo_cfg 2 0x00000102 0x410FC090 demo_init).cpu_topology
        2).thread_id = -1 ∧
      (topo_at (store_cpu_topology demo_cfg 2 0x00000102 0x410FC090 demo_init).cpu_topology
        2).core_id = 0 ∧
      (topo_at (store_cpu_topology demo_cfg 2 0x00000102 0x410FC090 demo_init).cpu_topology
        2).socket_id = -1) :=
  ⟨(store_cpu_topology_decodes demo_cfg demo_init 2 0x81030201 0x410FC090 (by decide)
      (by decide) (by decide) (by decide)).1 (by decide) (by decide),
    (store_cpu_topology_decodes demo_cfg demo_init 2 0x80000102 0x410FC090 (by decide)
      (by decide) (by decide) (by decide)).2.1 (by decide) (by decide),
    (store_cpu_topology_decodes demo_cfg demo_init 2 0x00000102 0x410FC090 (by decide)
      (by decide) (by decide) (by decide)).2.2 (by decide)⟩

theorem notifier_step_nodup (chain : List Nat) (op : NotifierOp) (h : chain.Nodup) :
    (notifier_step chain op).Nodup := by
  cases op with
  | register nb =>
    simp only [notifier_step, topology_register_notifier, atomic_notifier_chain_register]
    split_ifs with hmem
    · exact h
    · rw [List.nodup_append]
      refine ⟨h, List.nodup_singleton nb, ?_⟩
      intro a ha hb
      rw [List.mem_singleton] at hb
      exact hmem (hb ▸ ha)
  | unregister nb =>
    simp only [notifier_step, topology_unregister_notifier, atomic_notifier_chain_unregister]
    split_ifs with hmem
    · exact h.erase nb
    · exact h

theorem notifier_fold_nodup (ops : List NotifierOp) :
    ∀ chain : List Nat, chain.Nodup → (ops.foldl notifier_step chain).Nodup := by
  induction ops with
  | nil => intro chain h; exact h
  | cons op rest ih =>
    intro chain h
    rw [List.foldl_cons]
    exact ih _ (notifier_step_nodup chain op h)

theorem call_chain_count (chain : List Nat) (nb val : Nat) :
    (atomic_notifier_call_chain chain val).count (nb, val) = chain.count nb := by
  unfold atomic_notifier_call_chain
  induction chain with
  | nil => rfl
  | cons x xs ih =>
    rw [List.map_cons, List.count_cons, List.count_cons, ih]
    by_cases hx : x = nb
    · simp [hx]
    · have : ¬ ((x, val) = (nb, val)) := fun hh => hx (Prod.mk.inj hh).1
      simp [hx, this]

/-- C14. No duplicate observers: registering a callback that is already in the
chain is rejected and leaves the chain as it is, so after any sequence of
register and unregister calls from the empty chain every callback is in the
chain at most once, and the one call of the chain that a policy change makes
invokes each registered callback exactly once. -/
theorem notifier_no_duplicates (ops : List NotifierOp) :
    (notifier_run ops).Nodup ∧
    (∀ nb, (notifier_run ops).count nb ≤ 1) ∧
    (∀ nb ∈ notifier_run ops,
      topology_register_notifier (notifier_run ops) nb = (-17, notifier_run ops)) ∧
    (∀ nb ∈ notifier_run ops, ∀ val,
      (atomic_notifier_call_chain (notifier_run ops) val).count (nb, val) = 1) ∧
    (∀ (cfg : Config) (s : KState) (mc smt : Nat),
      (arch_update_cpu_topology cfg mc smt s).1 = 1 →
      (arch_update_cpu_topology cfg mc smt s).2.notifier_calls = s.notifier_calls ++ [mc]) := by
  have hnd : (notifier_run ops).Nodup := notifier_fold_nodup ops [] List.nodup_nil
  refine ⟨hnd, ?_, ?_, ?_, ?_⟩
  · intro nb
    exact List.nodup_iff_count_le_one.mp hnd nb
  · intro nb hnb
    simp [topology_register_notifier, atomic_notifier_chain_register, hnb]
  · intro nb hnb val
    rw [call_chain_count]
    exact List.count_eq_one_of_mem hnd hnb
  · intro cfg s mc smt hret
    rw [arch_update_rebuild cfg mc smt s (arch_update_ret cfg mc smt s hret)]

theorem notifier_no_duplicates_witness :
    topology_register_notifier (notifier_run demo_notifier_ops) 2
      = (-17, notifier_run demo_notifier_ops) ∧
    (atomic_notifier_call_chain (notifier_run demo_notifier_ops) 1).count (2, 1) = 1 ∧
    (arch_update_cpu_topology demo_cfg 1 0 (demo_state 0)).2.notifier_calls
      = (demo_state 0).notifier_calls ++ [1] :=
  ⟨(notifier_no_duplicates demo_notifier_ops).2.2.1 2 (by decide),
    (notifier_no_duplicates demo_notifier_ops).2.2.2.1 2 (by decide) 1,
    (notifier_no_duplicates demo_notifier_ops).2.2.2.2 demo_cfg (demo_state 0) 1 0 (by decide)⟩

/-- C12. `update_cpu_power` does not leave the capacity as it is for every
hardware id that no resolved entry has: with two resolved entries (hardware
ids 0 and 1) on four possible cpus, the id `0xFFFFFFFF` equals the end marker
stored in entry 2, the search stops there and cpu 3 gets the capacity 0 of
that entry divided by `middle_capacity`, that is 0, not the baseline. An id
found in a resolved entry gives the quotient, and another unknown id leaves
the baseline. -/
theorem capacity_application_sentinel_match :
    resolved_capacity demo_cfg true demo_nodes_rounding demo_boot 3 0xFFFFFFFF = some 0 ∧
    resolved_capacity demo_cfg true demo_nodes_rounding demo_boot 3 1 = some (700416 / 1367) ∧
    resolved_capacity demo_cfg true demo_nodes_rounding demo_boot 3 7 = some 1024 ∧
    SCHED_POWER_SCALE = 1024 := by
  decide

theorem parse_dt_loop_null (npos : Nat) (nodes : List device_node) :
    ∀ st st1 : ParseState, st.table = none → parse_dt_loop npos nodes st = some st1 →
      st1 = st := by
  induction nodes with
  | nil =>
    intro st st1 _ h
    simp only [parse_dt_loop, Option.some.injEq] at h
    exact h.symm
  | cons cn rest ih =>
    intro st st1 hnull h
    unfold parse_dt_loop at h
    split_ifs at h with hbrk
    · simp only [Option.some.injEq] at h
      exact h.symm
    · cases hfe : find_efficiency cn with
      | none =>
        rw [hfe] at h
        exact ih st st1 hnull h
      | some cpu_eff =>
        rw [hfe] at h
        simp only [] at h
        cases hr : get_u32_property cn.clock_frequency with
        | none =>
          rw [hr] at h
          exact ih st st1 hnull h
        | some rate =>
          rw [hr] at h
          simp only [] at h
          cases hg : get_u32_property cn.reg with
          | none =>
            rw [hg] at h
            exact ih st st1 hnull h
          | some reg =>
            rw [hg, hnull] at h
            simp [write_capacity] at h

/-- When `kzalloc` fails and the system has a possible cpu, `parse_dt_topology`
stores through the NULL pointer `cpu_capacity`, whatever the device tree. -/
theorem parse_dt_alloc_failure (cfg : Config) (nodes : List device_node) (s : KState)
    (hpos : 0 < num_possible_cpus cfg) : parse_dt_topology cfg false nodes s = none := by
  unfold parse_dt_topology
  simp only [Bool.false_eq_true, if_false]
  cases hloop : parse_dt_loop (num_possible_cpus cfg) nodes
      { cpu := 0, min_capacity := ULONG_MINUS_ONE, max_capacity := 0, table := none } with
  | none => rfl
  | some st =>
    have hst := parse_dt_loop_null _ nodes _ st rfl hloop
    subst hst
    simp [hpos, write_hwid]

/-- C15. An allocation failure is not survived: with `cpu_capacity` NULL,
`init_cpu_topology` (through `parse_dt_topology`) faults on a system with four
possible cpus, both with an empty device tree (the store of the end marker at
line 157) and with resolved cpu nodes (the store at line 152); and
`update_cpu_power` reads `cpu_capacity[0].hwid` through the NULL pointer. -/
theorem alloc_failure_faults :
    init_cpu_topology demo_cfg false [] demo_boot = none ∧
    init_cpu_topology demo_cfg false demo_nodes_big_little demo_boot = none ∧
    demo_boot.cpu_capacity = none ∧ update_cpu_power demo_cfg 0 0 demo_boot = none :=
  ⟨parse_dt_alloc_failure demo_cfg [] _ (by decide),
    parse_dt_alloc_failure demo_cfg demo_nodes_big_little _ (by decide), rfl, rfl⟩

theorem binv_loop (npos : Nat) (nodes : List device_node) :
    ∀ st st1 : ParseState, parse_dt_loop npos nodes st = some st1 → BInv st → BInv st1 := by
  induction nodes with
  | nil =>
    intro st st1 h hinv
    simp only [parse_dt_loop, Option.some.injEq] at h
    rw [← h]
    exact hinv
  | cons cn rest ih =>
    intro st st1 h hinv
    unfold parse_dt_loop at h
    split_ifs at h with hbrk
    · simp only [Option.some.injEq] at h
      rw [← h]
      exact hinv
    · cases hfe : find_efficiency cn with
      | none =>
        rw [hfe] at h
        exact ih st st1 h hinv
      | some cpu_eff =>
        rw [hfe] at h
        simp only [] at h
        cases hr : get_u32_property cn.clock_frequency with
        | none =>
          rw [hr] at h
          exact ih st st1 h hinv
        | some rate =>
          rw [hr] at h
          simp only [] at h
          cases hg : get_u32_property cn.reg with
          | none =>
            rw [hg] at h
            exact ih st st1 h hinv
          | some reg =>
            rw [hg] at h
            simp only [] at h
            have hk : rate >>> 20 < 4096 := by
              have := get_u32_property_lt _ _ hr
              rw [Nat.shiftRight_eq_div_pow]
              omega
            have heff := find_efficiency_value cn cpu_eff hfe
            have hcap : (rate >>> 20 * cpu_eff.efficiency) % 2 ^ 32 < 2 ^ 24 ∧
                ((rate >>> 20 * cpu_eff.efficiency) % 2 ^ 32 = 0 ∨
                  2048 ≤ (rate >>> 20 * cpu_eff.efficiency) % 2 ^ 32) := by
              generalize rate >>> 20 = k at hk
              rcases heff with he | he
              · rw [he]
                have hlt : k * 3891 < 2 ^ 32 := by omega
                rw [Nat.mod_eq_of_lt hlt]
                omega
              · rw [he]
                have hlt : k * 2048 < 2 ^ 32 := by omega
                rw [Nat.mod_eq_of_lt hlt]
                omega
            generalize (rate >>> 20 * cpu_eff.efficiency) % 2 ^ 32 = cap at h hcap
            cases hw1 : write_capacity st.table st.cpu cap with
            | none => rw [hw1] at h; simp at h
            | some t1 =>
              rw [hw1] at h
              simp only [] at h
              cases hw2 : write_hwid (some t1) st.cpu reg with
              | none => rw [hw2] at h; simp at h
              | some t2 =>
                rw [hw2] at h
                simp only [] at h
                refine ih _ st1 h ?_
                have hU : ULONG_MINUS_ONE = 4294967295 := by decide
                unfold BInv at hinv ⊢
                rw [hU] at hinv
                simp only []
                right
                rcases hinv with ⟨h1, h2⟩ | ⟨h1, h2, h3⟩
                · rw [h1, h2]
                  split_ifs <;> omega
                · split_ifs <;> omega

theorem binv_start (cfg : Config) (alloc_ok : Bool) : BInv (parse_start cfg alloc_ok) :=
  Or.inl ⟨rfl, rfl⟩

/-- The value of `middle_capacity` after `parse_dt_topology`, in exact
arithmetic, from the minimum and maximum the loop ends with. -/
theorem parse_dt_middle (cfg : Config) (alloc_ok : Bool) (nodes : List device_node)
    (s0 s : KState) (st : ParseState)
    (hparse : parse_dt_topology cfg alloc_ok nodes s0 = some s)
    (hloop : parse_dt_loop (num_possible_cpus cfg) nodes (parse_start cfg alloc_ok) = some st) :
    BInv st ∧
    s.middle_capacity =
      (if st.min_capacity = st.max_capacity then s0.middle_capacity
       else if 4 * st.max_capacity < 3 * (st.max_capacity + st.min_capacity) then
         (st.min_capacity + st.max_capacity) / 2 / 1024
       else st.max_capacity / 3 / 512 + 1) := by
  obtain ⟨st1, hloop1, _, hmid, _, _⟩ := parse_dt_cases cfg alloc_ok nodes s0 s hparse
  unfold parse_start at hloop
  rw [hloop] at hloop1
  simp only [Option.some.injEq] at hloop1
  subst hloop1
  have hb := binv_loop _ nodes _ st hloop (binv_start cfg alloc_ok)
  refine ⟨hb, ?_⟩
  rw [hmid]
  have hU : ULONG_MINUS_ONE = 4294967295 := by decide
  unfold BInv at hb
  rw [hU] at hb
  simp only [SCHED_POWER_SHIFT, Nat.shiftRight_eq_div_pow]
  rcases hb with ⟨h1, h2⟩ | ⟨h1, h2, _⟩
  · rw [h1, h2]
    norm_num
  · have e1 : (4 * st.max_capacity) % 2 ^ 32 = 4 * st.max_capacity := by omega
    have e2 : (st.max_capacity + st.min_capacity) % 2 ^ 32
        = st.max_capacity + st.min_capacity := by omega
    have e3 : (3 * (st.max_capacity + st.min_capacity)) % 2 ^ 32
        = 3 * (st.max_capacity + st.min_capacity) := by omega
    have e4 : (st.min_capacity + st.max_capacity) % 2 ^ 32
        = st.min_capacity + st.max_capacity := by omega
    have e5 : (st.max_capacity / 3 / 2 ^ (10 - 1) + 1) % 2 ^ 32
        = st.max_capacity / 3 / 512 + 1 := by
      have : (2 : Nat) ^ (10 - 1) = 512 := by norm_num
      rw [this]
      omega
    rw [e1, e2, e3, e4, e5]
    have e6 : (st.min_capacity + st.max_capacity) / 2 ^ (10 + 1)
        = (st.min_capacity + st.max_capacity) / 2 / 1024 := by
      have : (2 : Nat) ^ (10 + 1) = 2048 := by norm_num
      rw [this]
      omega
    rw [e6]

/-- C17. Middle-capacity formula: with the minimum and maximum raw capacity the
loop of `parse_dt_topology` ends with, in exact arithmetic, `middle_capacity`
becomes `floor(floor((min + max) / 2) / 1024)` when `min != max` and
`4 * max < 3 * (max + min)`, and `floor(floor(max / 3) / 512) + 1` when
`min != max` and not; when `min == max` it keeps the value it had, which is
its initial value 1. -/
theorem middle_capacity_formula (cfg : Config) (alloc_ok : Bool) (nodes : List device_node)
    (s0 s : KState) (st : ParseState)
    (hparse : parse_dt_topology cfg alloc_ok nodes s0 = some s)
    (hloop : parse_dt_loop (num_possible_cpus cfg) nodes (parse_start cfg alloc_ok) = some st) :
    (st.min_capacity ≠ st.max_capacity →
      4 * st.max_capacity < 3 * (st.max_capacity + st.min_capacity) →
      s.middle_capacity = (st.min_capacity + st.max_capacity) / 2 / 1024) ∧
    (st.min_capacity ≠ st.max_capacity →
      ¬ 4 * st.max_capacity < 3 * (st.max_capacity + st.min_capacity) →
      s.middle_capacity = st.max_capacity / 3 / 512 + 1) ∧
    (st.min_capacity = st.max_capacity → s.middle_capacity = s0.middle_capacity) ∧
    (st.min_capacity = st.max_capacity → s0.middle_capacity = 1 → s.middle_capacity = 1) := by
  obtain ⟨_, hmid⟩ := parse_dt_middle cfg alloc_ok nodes s0 s st hparse hloop
  refine ⟨?_, ?_, ?_, ?_⟩
  · intro h1 h2
    rw [hmid, if_neg h1, if_pos h2]
  · intro h1 h2
    rw [hmid, if_neg h1, if_neg h2]
  · intro h1
    rw [hmid, if_pos h1]
  · intro h1 h2
    rw [hmid, if_pos h1, h2]

theorem middle_capacity_formula_witness :
    demo_rounding.middle_capacity
      = (demo_rounding_parse.min_capacity + demo_rounding_parse.max_capacity) / 2 / 1024 :=
  (middle_capacity_formula demo_cfg true demo_nodes_rounding demo_boot demo_rounding
    demo_rounding_parse (by rfl) (by rfl)).1 (by decide) (by decide)

/-- C20. The normaliser is never zero: with the shipped `table_efficiency` and
32-bit arithmetic, for every device tree, when `middle_capacity` is 1 before
`parse_dt_topology` it is at least 1 after it, so whenever the search of
`update_cpu_power` finds an entry the division is carried out and its result is
stored. -/
theorem middle_capacity_nonzero (cfg : Config) (alloc_ok : Bool) (nodes : List device_node)
    (s0 s : KState)
    (hparse : parse_dt_topology cfg alloc_ok nodes s0 = some s)
    (hone : s0.middle_capacity = 1) :
    1 ≤ s.middle_capacity ∧
    ∀ (cpu hwid i : Nat) (l : List cpu_capacity) (e : cpu_capacity),
      update_cpu_power_loop s.cpu_capacity (hwid % 2 ^ 32) (num_possible_cpus cfg) 0
        = Lookup.found i →
      s.cpu_capacity = some l → l.get? i = some e →
      update_cpu_power cfg cpu hwid s
        = some (set_power_scale cpu (e.capacity / s.middle_capacity) s) := by
  obtain ⟨st, hloop, _⟩ := parse_dt_cases cfg alloc_ok nodes s0 s hparse
  obtain ⟨hb, hmid⟩ := parse_dt_middle cfg alloc_ok nodes s0 s st hparse hloop
  have hpos : 1 ≤ s.middle_capacity := by
    rw [hmid]
    have hU : ULONG_MINUS_ONE = 4294967295 := by decide
    unfold BInv at hb
    rw [hU] at hb
    split_ifs with h1 h2
    · rw [hone]
    · rcases hb with ⟨q1, q2⟩ | ⟨q1, q2, q3⟩
      · rw [q1, q2]
        norm_num
      · omega
    · omega
  refine ⟨hpos, ?_⟩
  intro cpu hwid i l e hfound hl he
  exact update_cpu_power_found cfg cpu hwid i s l e hfound hl he (by omega)

theorem middle_capacity_nonzero_witness :
    1 ≤ demo_rounding.middle_capacity ∧
    update_cpu_power demo_cfg 3 1 demo_rounding
      = some (set_power_scale 3 (700416 / demo_rounding.middle_capacity) demo_rounding) :=
  ⟨(middle_capacity_nonzero demo_cfg true demo_nodes_rounding demo_boot demo_rounding (by rfl)
      (by rfl)).1,
    (middle_capacity_nonzero demo_cfg true demo_nodes_rounding demo_boot demo_rounding (by rfl)
      (by rfl)).2 3 1 1 [⟨0, 2101140⟩, ⟨1, 700416⟩, ⟨4294967295, 0⟩, ⟨0, 0⟩] ⟨1, 700416⟩
      (by rfl) (by rfl) (by rfl)⟩

/-- What `default_cpu_topology_mask(c)` adds to the sibling sets: the pairs of
`c` with the possible cpus of the same socket id (core), and of the same
socket id and core id (thread). -/
theorem default_mask_adds (cfg : Config) (t : List cputopo_arm) (c : Nat)
    (hN : cfg.nr_cpu_ids ≤ t.length) (hc : c ∈ possible_cpus cfg) :
    (default_cpu_topology_mask cfg c t).length = t.length ∧
    (∀ x, (topo_at (default_cpu_topology_mask cfg c t) x).socket_id = (topo_at t x).socket_id ∧
      (topo_at (default_cpu_topology_mask cfg c t) x).core_id = (topo_at t x).core_id) ∧
    (∀ a b, b ∈ (topo_at (default_cpu_topology_mask cfg c t) a).core_sibling ↔
      b ∈ (topo_at t a).core_sibling ∨
      (((a = c ∧ b ∈ possible_cpus cfg) ∨ (b = c ∧ a ∈ possible_cpus cfg)) ∧
        (topo_at t a).socket_id = (topo_at t b).socket_id)) ∧
    (∀ a b, b ∈ (topo_at (default_cpu_topology_mask cfg c t) a).thread_sibling ↔
      b ∈ (topo_at t a).thread_sibling ∨
      (((a = c ∧ b ∈ possible_cpus cfg) ∨ (b = c ∧ a ∈ possible_cpus cfg)) ∧
        (topo_at t a).socket_id = (topo_at t b).socket_id ∧
        (topo_at t a).core_id = (topo_at t b).core_id)) := by
  have hlt : c < t.length := lt_of_lt_of_le (mem_possible_lt cfg c hc) hN
  obtain ⟨e1, e2, e3, e4⟩ := default_mask_ext cfg c t hN hlt
  refine ⟨e1, fun x => ⟨(e2 x).2.2.2, (e2 x).2.2.1⟩, ?_, ?_⟩
  · intro a b
    rw [e3 a b]
    apply or_congr Iff.rfl
    unfold joinC pair_of
    constructor
    · rintro ⟨cpu, hcpu, ⟨hs, _⟩, (⟨h1, h2⟩ | ⟨h1, h2⟩)⟩
      · subst h1 h2
        exact ⟨Or.inr ⟨rfl, hcpu⟩, hs.symm⟩
      · subst h1 h2
        exact ⟨Or.inl ⟨rfl, hcpu⟩, hs⟩
    · rintro ⟨(⟨h1, h2⟩ | ⟨h1, h2⟩), hs⟩
      · subst h1
        exact ⟨b, h2, ⟨hs, fun hh => absurd hh (by decide)⟩, Or.inr ⟨rfl, rfl⟩⟩
      · subst h1
        exact ⟨a, h2, ⟨hs.symm, fun hh => absurd hh (by decide)⟩, Or.inl ⟨rfl, rfl⟩⟩
  · intro a b
    rw [e4 a b]
    apply or_congr Iff.rfl
    unfold joinT joinC pair_of
    constructor
    · rintro ⟨cpu, hcpu, ⟨⟨hs, _⟩, hk⟩, (⟨h1, h2⟩ | ⟨h1, h2⟩)⟩
      · subst h1 h2
        exact ⟨Or.inr ⟨rfl, hcpu⟩, hs.symm, hk.symm⟩
      · subst h1 h2
        exact ⟨Or.inl ⟨rfl, hcpu⟩, hs, hk⟩
    · rintro ⟨(⟨h1, h2⟩ | ⟨h1, h2⟩), hs, hk⟩
      · subst h1
        exact ⟨b, h2, ⟨⟨hs, fun hh => absurd hh (by decide)⟩, hk⟩, Or.inr ⟨rfl, rfl⟩⟩
      · subst h1
        exact ⟨a, h2, ⟨⟨hs.symm, fun hh => absurd hh (by decide)⟩, hk.symm⟩, Or.inl ⟨rfl, rfl⟩⟩

/-- C18, as stated, fails: after `init_cpu_topology`, `store_cpu_topology(0)`
with an MPIDR of the uniprocessor layout gives cpu 0 the socket id -1, and
`default_cpu_topology_mask(0)` puts the undiscovered cpu 1 (core id -1) into
the core_sibling set of cpu 0 and cpu 0 into the core_sibling set of cpu 1. -/
theorem default_mask_joins_undiscovered :
    (topo_at (store_cpu_topology demo_cfg 0 0 0 demo_init).cpu_topology 1).core_id = -1 ∧
    1 ∈ (topo_at (store_cpu_topology demo_cfg 0 0 0 demo_init).cpu_topology 0).core_sibling ∧
    0 ∈ (topo_at (store_cpu_topology demo_cfg 0 0 0 demo_init).cpu_topology 1).core_sibling ∧
    1 ∉ (topo_at demo_init.cpu_topology 0).core_sibling := by
  decide

/-- C18, amended. `default_cpu_topology_mask(c)` does not test whether a cpu is
discovered: it adds a possible cpu `x` to the core_sibling set of `c`, and `c`
to the core_sibling set of `x`, exactly when both have the same socket id, and
to the thread_sibling sets exactly when both also have the same core id; no
other bit changes, in particular none that pairs `c` with a cpu that is not
possible. So an undiscovered cpu, whose socket id is -1, is added exactly when
the socket id of `c` is -1 too. -/
theorem default_mask_joins_by_socket (cfg : Config) (t : List cputopo_arm) (c x : Nat)
    (hN : cfg.nr_cpu_ids ≤ t.length) (hc : c ∈ possible_cpus cfg)
    (hx : x ∈ possible_cpus cfg) :
    (x ∈ (topo_at (default_cpu_topology_mask cfg c t) c).core_sibling ↔
      x ∈ (topo_at t c).core_sibling ∨ (topo_at t x).socket_id = (topo_at t c).socket_id) ∧
    (c ∈ (topo_at (default_cpu_topology_mask cfg c t) x).core_sibling ↔
      c ∈ (topo_at t x).core_sibling ∨ (topo_at t x).socket_id = (topo_at t c).socket_id) ∧
    (x ∈ (topo_at (default_cpu_topology_mask cfg c t) c).thread_sibling ↔
      x ∈ (topo_at t c).thread_sibling ∨
        ((topo_at t x).socket_id = (topo_at t c).socket_id ∧
          (topo_at t x).core_id = (topo_at t c).core_id)) ∧
    (c ∈ (topo_at (default_cpu_topology_mask cfg c t) x).thread_sibling ↔
      c ∈ (topo_at t x).thread_sibling ∨
        ((topo_at t x).socket_id = (topo_at t c).socket_id ∧
          (topo_at t x).core_id = (topo_at t c).core_id)) ∧
    (∀ a b, a ≠ c → b ≠ c →
      (b ∈ (topo_at (default_cpu_topology_mask cfg c t) a).core_sibling ↔
        b ∈ (topo_at t a).core_sibling) ∧
      (b ∈ (topo_at (default_cpu_topology_mask cfg c t) a).thread_sibling ↔
        b ∈ (topo_at t a).thread_sibling)) ∧
    ((topo_at t x).socket_id = -1 → (topo_at t c).socket_id ≠ -1 →
      (x ∈ (topo_at (default_cpu_topology_mask cfg c t) c).core_sibling ↔
        x ∈ (topo_at t c).core_sibling) ∧
      (c ∈ (topo_at (default_cpu_topology_mask cfg c t) x).core_sibling ↔
        c ∈ (topo_at t x).core_sibling)) ∧
    (∀ y, y ∉ possible_cpus cfg →
      (y ∈ (topo_at (default_cpu_topology_mask cfg c t) c).core_sibling ↔
        y ∈ (topo_at t c).core_sibling) ∧
      (c ∈ (topo_at (default_cpu_topology_mask cfg c t) y).core_sibling ↔
        c ∈ (topo_at t y).core_sibling) ∧
      (y ∈ (topo_at (default_cpu_topology_mask cfg c t) c).thread_sibling ↔
        y ∈ (topo_at t c).thread_sibling) ∧
      (c ∈ (topo_at (default_cpu_topology_mask cfg c t) y).thread_sibling ↔
        c ∈ (topo_at t y).thread_sibling)) := by
  obtain ⟨_, _, hcs, hts⟩ := default_mask_adds cfg t c hN hc
  have h1 : x ∈ (topo_at (default_cpu_topology_mask cfg c t) c).core_sibling ↔
      x ∈ (topo_at t c).core_sibling ∨ (topo_at t x).socket_id = (topo_at t c).socket_id := by
    rw [hcs c x]
    constructor
    · rintro (h | ⟨_, h⟩)
      · exact Or.inl h
      · exact Or.inr h.symm
    · rintro (h | h)
      · exact Or.inl h
      · exact Or.inr ⟨Or.inl ⟨rfl, hx⟩, h.symm⟩
  have h2 : c ∈ (topo_at (default_cpu_topology_mask cfg c t) x).core_sibling ↔
      c ∈ (topo_at t x).core_sibling ∨ (topo_at t x).socket_id = (topo_at t c).socket_id := by
    rw [hcs x c]
    constructor
    · rintro (h | ⟨_, h⟩)
      · exact Or.inl h
      · exact Or.inr h
    · rintro (h | h)
      · exact Or.inl h
      · exact Or.inr ⟨Or.inr ⟨rfl, hx⟩, h⟩
  refine ⟨h1, h2, ?_, ?_, ?_, ?_, ?_⟩
  · rw [hts c x]
    constructor
    · rintro (h | ⟨_, h, hk⟩)
      · exact Or.inl h
      · exact Or.inr ⟨h.symm, hk.symm⟩
    · rintro (h | ⟨h, hk⟩)
      · exact Or.inl h
      · exact Or.inr ⟨Or.inl ⟨rfl, hx⟩, h.symm, hk.symm⟩
  · rw [hts x c]
    constructor
    · rintro (h | ⟨_, h, hk⟩)
      · exact Or.inl h
      · exact Or.inr ⟨h, hk⟩
    · rintro (h | ⟨h, hk⟩)
      · exact Or.inl h
      · exact Or.inr ⟨Or.inr ⟨rfl, hx⟩, h, hk⟩
  · intro a b ha hb
    rw [hcs a b, hts a b]
    constructor
    · constructor
      · rintro (h | ⟨(⟨h, _⟩ | ⟨h, _⟩), _⟩)
        · exact h
        · exact absurd h ha
        · exact absurd h hb
      · exact fun h => Or.inl h
    · constructor
      · rintro (h | ⟨(⟨h, _⟩ | ⟨h, _⟩), _⟩)
        · exact h
        · exact absurd h ha
        · exact absurd h hb
      · exact fun h => Or.inl h
  · intro hxs hcs2
    have hne : ¬ (topo_at t x).socket_id = (topo_at t c).socket_id := by
      rw [hxs]
      exact fun h => hcs2 h.symm
    rw [h1, h2]
    simp [hne]
  · intro y hy
    have hyc : y ≠ c := fun h => hy (h ▸ hc)
    rw [hcs c y, hcs y c, hts c y, hts y c]
    refine ⟨⟨?_, Or.inl⟩, ⟨?_, Or.inl⟩, ⟨?_, Or.inl⟩, ⟨?_, Or.inl⟩⟩
    · rintro (h | ⟨(⟨_, h⟩ | ⟨h, _⟩), _⟩)
      · exact h
      · exact absurd h hy
      · exact absurd h hyc
    · rintro (h | ⟨(⟨h, _⟩ | ⟨_, h⟩), _⟩)
      · exact h
      · exact absurd h hyc
      · exact absurd h hy
    · rintro (h | ⟨(⟨_, h⟩ | ⟨h, _⟩), _⟩)
      · exact h
      · exact absurd h hy
      · exact absurd h hyc
    · rintro (h | ⟨(⟨h, _⟩ | ⟨_, h⟩), _⟩)
      · exact h
      · exact absurd h hyc
      · exact absurd h hy

theorem default_mask_joins_by_socket_witness :
    (1 ∈ (topo_at (default_cpu_topology_mask demo_cfg 0 (demo_decoded 0)) 0).core_sibling ↔
      1 ∈ (topo_at (demo_decoded 0) 0).core_sibling ∨
      (topo_at (demo_decoded 0) 1).socket_id = (topo_at (demo_decoded 0) 0).socket_id) ∧
    ((1 ∈ (topo_at (default_cpu_topology_mask demo_cfg 0 (demo_decoded 0x80000000))
        0).core_sibling ↔ 1 ∈ (topo_at (demo_decoded 0x80000000) 0).core_sibling) ∧
      (0 ∈ (topo_at (default_cpu_topology_mask demo_cfg 0 (demo_decoded 0x80000000))
        1).core_sibling ↔ 0 ∈ (topo_at (demo_decoded 0x80000000) 1).core_sibling)) :=
  ⟨(default_mask_joins_by_socket demo_cfg (demo_decoded 0) 0 1 (by decide) (by decide)
      (by decide)).1,
    (default_mask_joins_by_socket demo_cfg (demo_decoded 0x80000000) 0 1 (by decide) (by decide)
      (by decide)).2.2.2.2.2.1 (by decide) (by decide)⟩

/-- C19, as stated, fails: for the undiscovered cpu 0 and an MPIDR of the
uniprocessor layout, `store_cpu_topology(0)` leaves the family id at -1
whatever the main id register holds (here 0x410FC090); and with the
multiprocessor layout and the main id 0xFFFFFFFF the `int` field holds
-15728656, not the number `0xFFFFFFFF & 0xFF0FFFF0` = 4279238640. -/
theorem family_id_skipped_uniprocessor :
    (topo_at demo_init.cpu_topology 0).core_id = -1 ∧
    (topo_at (store_cpu_topology demo_cfg 0 0 0x410FC090 demo_init).cpu_topology 0).id = -1 ∧
    (topo_at (store_cpu_topology demo_cfg 0 0 0x410FC090 demo_init).cpu_topology 0).id
      ≠ ((0x410FC090 &&& 0xFF0FFFF0 : Nat) : Int) ∧
    (topo_at (store_cpu_topology demo_cfg 0 0x80000000 0xFFFFFFFF demo_init).cpu_topology 0).id
      = -15728656 ∧
    (topo_at (store_cpu_topology demo_cfg 0 0x80000000 0xFFFFFFFF demo_init).cpu_topology 0).id
      ≠ ((0xFFFFFFFF &&& 0xFF0FFFF0 : Nat) : Int) := by
  decide

theorem int_of_u32_cases (x : Nat) (hx : x < 2 ^ 32) :
    (x < 2 ^ 31 → int_of_u32 x = (x : Int)) ∧
    (2 ^ 31 ≤ x → int_of_u32 x = (x : Int) - 2 ^ 32) ∧
    int_of_u32 x % 2 ^ 32 = (x : Int) := by
  have hmod : x % 2 ^ 32 = x := Nat.mod_eq_of_lt hx
  unfold int_of_u32
  rw [hmod]
  refine ⟨fun h => by rw [if_pos h], fun h => by rw [if_neg (by omega)], ?_⟩
  split_ifs <;> omega

/-- C19, amended. For an undiscovered possible cpu `c`, every 32-bit MPIDR
value `m` and every 32-bit main id value `v`: after `store_cpu_topology(c)`,
when the multiprocessor layout is present the `int` field `id` holds
`v & 0xFF0FFFF0` as a signed 32-bit value, that is the number `v & 0xFF0FFFF0`
itself when it is below `2 ^ 31` and that number minus `2 ^ 32` otherwise
(the same 32 bits in both cases); when the layout is absent the field is the
value it had before (-1 after `init_cpu_topology`). -/
theorem store_cpu_topology_family_id (cfg : Config) (s : KState) (c m v : Nat)
    (hN : cfg.nr_cpu_ids ≤ s.cpu_topology.length) (hc : c ∈ possible_cpus cfg)
    (hu : (topo_at s.cpu_topology c).core_id = -1) (hm : m < 2 ^ 32) (hv : v < 2 ^ 32) :
    (m &&& 0xC0000000 = 0x80000000 → v &&& 0xFF0FFFF0 < 2 ^ 31 →
      (topo_at (store_cpu_topology cfg c m v s).cpu_topology c).id
        = ((v &&& 0xFF0FFFF0 : Nat) : Int)) ∧
    (m &&& 0xC0000000 = 0x80000000 → 2 ^ 31 ≤ v &&& 0xFF0FFFF0 →
      (topo_at (store_cpu_topology cfg c m v s).cpu_topology c).id
        = ((v &&& 0xFF0FFFF0 : Nat) : Int) - 2 ^ 32) ∧
    (m &&& 0xC0000000 = 0x80000000 →
      (topo_at (store_cpu_topology cfg c m v s).cpu_topology c).id % 2 ^ 32
        = ((v &&& 0xFF0FFFF0 : Nat) : Int)) ∧
    (m &&& 0xC0000000 ≠ 0x80000000 →
      (topo_at (store_cpu_topology cfg c m v s).cpu_topology c).id
        = (topo_at s.cpu_topology c).id) := by
  have hlt : c < s.cpu_topology.length := lt_of_lt_of_le (mem_possible_lt cfg c hc) hN
  have hst : (store_cpu_topology cfg c m v s).cpu_topology =
      default_cpu_topology_mask cfg c (s.cpu_topology.set c
        (decode_mpidr m v (topo_at s.cpu_topology c))) := by
    unfold store_cpu_topology
    simp [hu]
  have e := default_mask_ext cfg c (s.cpu_topology.set c
    (decode_mpidr m v (topo_at s.cpu_topology c))) (by simpa using hN) (by simpa using hlt)
  rw [← hst] at e
  obtain ⟨_, e2, _, _⟩ := e
  obtain ⟨p1, _, _, _⟩ := e2 c
  rw [p1, topo_at_set _ c _ c hlt]
  simp only [if_true]
  have hmod : m % 2 ^ 32 = m := Nat.mod_eq_of_lt hm
  have hvmod : v % 2 ^ 32 = v := Nat.mod_eq_of_lt hv
  have hand : v &&& 0xFF0FFFF0 < 2 ^ 32 := lt_of_le_of_lt Nat.and_le_left hv
  obtain ⟨c1, c2, c3⟩ := int_of_u32_cases (v &&& 0xFF0FFFF0) hand
  have hmp : m &&& 0xC0000000 = 0x80000000 →
      (decode_mpidr m v (topo_at s.cpu_topology c)).id = int_of_u32 (v &&& 0xFF0FFFF0) := by
    intro h1
    unfold decode_mpidr
    simp only [hmod, hvmod, MPIDR_SMP_BITMASK, MPIDR_SMP_VALUE, ARM_FAMILY_MASK]
    simp [h1]
  refine ⟨?_, ?_, ?_, ?_⟩
  · intro h1 h2
    rw [hmp h1]
    exact c1 h2
  · intro h1 h2
    rw [hmp h1]
    exact c2 h2
  · intro h1
    rw [hmp h1]
    exact c3
  · intro h1
    unfold decode_mpidr
    simp only [hmod, MPIDR_SMP_BITMASK, MPIDR_SMP_VALUE]
    simp [h1]

theorem store_cpu_topology_family_id_witness :
    (topo_at (store_cpu_topology demo_cfg 1 0x80000001 0x412FC09A demo_init).cpu_topology 1).id
      = ((0x412FC09A &&& 0xFF0FFFF0 : Nat) : Int) ∧
    (topo_at (store_cpu_topology demo_cfg 1 0x80000001 0xFFFFFFFF demo_init).cpu_topology 1).id
      = ((0xFFFFFFFF &&& 0xFF0FFFF0 : Nat) : Int) - 2 ^ 32 ∧
    (topo_at (store_cpu_topology demo_cfg 1 0x80000001 0xFFFFFFFF demo_init).cpu_topology 1).id
      % 2 ^ 32 = ((0xFFFFFFFF &&& 0xFF0FFFF0 : Nat) : Int) ∧
    (topo_at (store_cpu_topology demo_cfg 1 0x00000001 0x412FC09A demo_init).cpu_topology 1).id
      = (topo_at demo_init.cpu_topology 1).id :=
  ⟨(store_cpu_topology_family_id demo_cfg demo_init 1 0x80000001 0x412FC09A (by decide)
      (by decide) (by decide) (by decide) (by decide)).1 (by decide) (by decide),
    (store_cpu_topology_family_id demo_cfg demo_init 1 0x80000001 0xFFFFFFFF (by decide)
      (by decide) (by decide) (by decide) (by decide)).2.1 (by decide) (by decide),
    (store_cpu_topology_family_id demo_cfg demo_init 1 0x80000001 0xFFFFFFFF (by decide)
      (by decide) (by decide) (by decide) (by decide)).2.2.1 (by decide),
    (store_cpu_topology_family_id demo_cfg demo_init 1 0x00000001 0x412FC09A (by decide)
      (by decide) (by decide) (by decide) (by decide)).2.2.2 (by decide)⟩

/-- Where the search loop of `update_cpu_power` stops with an entry: at the
first index from `idx` whose entry has the hardware id looked for, provided no
earlier entry holds the end marker. -/
theorem update_cpu_power_loop_found (l : List cpu_capacity) (hwid : Nat) :
    ∀ (fuel idx i : Nat), update_cpu_power_loop (some l) hwid fuel idx = Lookup.found i →
      idx ≤ i ∧ i < idx + fuel ∧ (∃ e, l.get? i = some e ∧ e.hwid = hwid) ∧
      ∀ j, idx ≤ j → j < i →
        ∃ e, l.get? j = some e ∧ e.hwid ≠ hwid ∧ e.hwid ≠ ULONG_MINUS_ONE := by
  intro fuel
  induction fuel with
  | zero =>
    intro idx i h
    simp [update_cpu_power_loop] at h
  | succ n ih =>
    intro idx i h
    unfold update_cpu_power_loop at h
    simp only [] at h
    cases hg : l.get? idx with
    | none => rw [hg] at h; simp at h
    | some e =>
      rw [hg] at h
      simp only [] at h
      by_cases h1 : e.hwid = hwid
      · rw [if_pos h1] at h
        injection h with h
        subst h
        exact ⟨le_refl _, by omega, ⟨e, hg, h1⟩, fun j hj1 hj2 => by omega⟩
      · rw [if_neg h1] at h
        by_cases h2 : e.hwid = ULONG_MINUS_ONE
        · rw [if_pos h2] at h
          exact absurd h (by simp)
        · rw [if_neg h2] at h
          obtain ⟨q1, q2, q3, q4⟩ := ih (idx + 1) i h
          refine ⟨by omega, by omega, q3, ?_⟩
          intro j hj1 hj2
          by_cases hj : j = idx
          · subst hj
            exact ⟨e, hg, h1, h2⟩
          · exact q4 j (by omega) hj2

/-- A call of `update_cpu_power` that returns leaves everything but the
capacity of `cpu` as it was. -/
theorem update_cpu_power_frame (cfg : Config) (cpu hwid : Nat) (s s1 : KState)
    (h : update_cpu_power cfg cpu hwid s = some s1) :
    (∀ c, c ≠ cpu → arch_scale_freq_power s1 c = arch_scale_freq_power s c) ∧
    s1.cpu_capacity = s.cpu_capacity ∧ s1.middle_capacity = s.middle_capacity ∧
    s1.cpu_topology = s.cpu_topology := by
  unfold update_cpu_power at h
  simp only [] at h
  split at h
  · exact absurd h (by simp)
  · injection h with h; subst h; exact ⟨fun _ _ => rfl, rfl, rfl, rfl⟩
  · injection h with h; subst h; exact ⟨fun _ _ => rfl, rfl, rfl, rfl⟩
  · split at h
    · exact absurd h (by simp)
    · split at h
      · exact absurd h (by simp)
      · split_ifs at h
        injection h with h
        subst h
        refine ⟨fun c hc => ?_, rfl, rfl, rfl⟩
        simp [arch_scale_freq_power, set_power_scale, hc]

theorem update_siblings_masks_body_eq (cpuid : Nat) (t : List cputopo_arm) (cpu : Nat) :
    update_siblings_masks_body cpuid t cpu = default_cpu_topology_mask_body cpuid t cpu := by
  unfold update_siblings_masks_body default_cpu_topology_mask_body
  by_cases hs : (topo_at t cpuid).socket_id = (topo_at t cpu).socket_id
  · rw [if_neg (not_not.mpr hs), if_pos hs]
    simp only []
    split_ifs <;> first | rfl | contradiction
  · rw [if_pos hs, if_neg hs]

/-- C21. The two single-cpu default mask routines are equivalent: for every
table and every cpu `c`, `update_siblings_masks(c)` (skip-with-continue form)
and `default_cpu_topology_mask(c)` (nested-if form) leave the same table, so
the same core_sibling and thread_sibling sets for every cpu. -/
theorem update_siblings_masks_eq_default (cfg : Config) (c : Nat) (t : List cputopo_arm) :
    update_siblings_masks cfg c t = default_cpu_topology_mask cfg c t ∧
    ∀ x, (topo_at (update_siblings_masks cfg c t) x).core_sibling
        = (topo_at (default_cpu_topology_mask cfg c t) x).core_sibling ∧
      (topo_at (update_siblings_masks cfg c t) x).thread_sibling
        = (topo_at (default_cpu_topology_mask cfg c t) x).thread_sibling := by
  have h : update_siblings_masks cfg c t = default_cpu_topology_mask cfg c t := by
    unfold update_siblings_masks default_cpu_topology_mask
    congr 1
    funext t1 cpu
    exact update_siblings_masks_body_eq c t1 cpu
  refine ⟨h, fun x => ?_⟩
  rw [h]
  exact ⟨rfl, rfl⟩

/-! ## The handler list of psfreq.c -/

theorem find_handler_iff (l : List Nat) (handler : Nat) :
    find_handler l handler = true ↔ handler ∈ l := by
  induction l with
  | nil => simp [find_handler]
  | cons h rest ih =>
    unfold find_handler
    by_cases hh : h = handler
    · simp [hh]
    · rw [if_neg hh, ih, List.mem_cons]
      constructor
      · exact fun hm => Or.inr hm
      · rintro (hm | hm)
        · exact absurd hm.symm hh
        · exact hm

theorem del_handler_eq_erase (l : List Nat) (handler : Nat) :
    del_handler l handler = l.erase handler := by
  induction l with
  | nil => rfl
  | cons h rest ih =>
    unfold del_handler
    rw [List.erase_cons]
    by_cases hh : h = handler
    · simp [hh]
    · have hb : (h == handler) = false := by simpa using hh
      rw [if_neg hh, ih, hb]
      rfl

theorem freq_step_nodup (l : List Nat) (op : FreqOp) (h : l.Nodup) : (freq_step l op).Nodup := by
  cases op with
  | register alloc_ok handler =>
    simp only [freq_step, register_freqconv_change]
    by_cases hf : find_handler l handler = true
    · rw [if_pos hf]
      exact h
    · rw [if_neg hf]
      split_ifs
      · exact h
      · have hmem : handler ∉ l := fun hm => hf ((find_handler_iff l handler).mpr hm)
        rw [List.nodup_append]
        refine ⟨h, List.nodup_singleton handler, ?_⟩
        intro a ha hb
        rw [List.mem_singleton] at hb
        exact hmem (hb ▸ ha)
  | unregister handler =>
    simp only [freq_step, unregister_freqconv_change]
    split_ifs
    · rw [del_handler_eq_erase]
      exact h.erase handler
    · exact h

theorem freq_fold_nodup (ops : List FreqOp) :
    ∀ l : List Nat, l.Nodup → (ops.foldl freq_step l).Nodup := by
  induction ops with
  | nil => intro l h; exact h
  | cons op rest ih =>
    intro l h
    rw [List.foldl_cons]
    exact ih _ (freq_step_nodup l op h)

theorem notify_handlers_eq (freq suspended : Nat) (l : List Nat) :
    notify_handlers freq suspended l
      = (l.filter (fun h => decide (h ≠ NULL_HANDLER))).map (fun h => (h, freq, suspended)) := by
  induction l with
  | nil => rfl
  | cons h rest ih =>
    unfold notify_handlers
    by_cases hh : h ≠ NULL_HANDLER
    · rw [if_pos hh, ih, List.filter_cons_of_pos (by simpa using hh), List.map_cons]
    · rw [if_neg hh, ih, List.filter_cons_of_neg (by simpa using hh)]

theorem notify_handlers_count (freq suspended : Nat) (l : List Nat) (h : Nat)
    (hh : h ≠ NULL_HANDLER) :
    (notify_handlers freq suspended l).count (h, freq, suspended) = l.count h := by
  induction l with
  | nil => rfl
  | cons x rest ih =>
    unfold notify_handlers
    by_cases hx : x = h
    · subst hx
      rw [if_pos hh, List.count_cons_self, List.count_cons_self, ih]
    · have hne : ¬ ((x, freq, suspended) = (h, freq, suspended)) :=
        fun he => hx (Prod.mk.inj he).1
      rw [List.count_cons_of_ne (Ne.symm hx)]
      split_ifs
      · rw [List.count_cons_of_ne (Ne.symm hne), ih]
      · exact ih

/-- C22, as stated, fails: `register_freqconv_change(NULL)` puts a node with a
null `notify` pointer into the list, and `freqconv_donotify` with
`PS_FREQ_CMD` skips that node, so this registered handler is in the list and is
called zero times. -/
theorem freqconv_null_handler_skipped :
    NULL_HANDLER ∈ freq_run [FreqOp.register true NULL_HANDLER] ∧
    (freqconv_donotify (some demo_freq_cmd)
      (freq_run [FreqOp.register true NULL_HANDLER])).count
        (NULL_HANDLER, demo_freq_cmd.freq, demo_freq_cmd.suspended) = 0 := by
  decide

/-- C22, amended. From the empty list, after any sequence of
`register_freqconv_change` calls (allocation succeeding or failing) and
`unregister_freqconv_change` calls, no handler is in `freqconv_handlers` twice;
registering a handler already present and unregistering one that is absent
leave the list as it is; a new handler goes to the tail, or nowhere when the
allocation fails, and unregistering takes out that handler only, so the list
is in registration order; `freqconv_donotify` with `PS_FREQ_CMD` calls the
registered handlers that are not NULL, each exactly once, in that order, and
skips a registered null pointer. -/
theorem freqconv_handlers_invariant (ops : List FreqOp) :
    (freq_run ops).Nodup ∧
    (∀ h, (freq_run ops).count h ≤ 1) ∧
    (∀ h ∈ freq_run ops, ∀ alloc_ok,
      register_freqconv_change alloc_ok (freq_run ops) h = freq_run ops) ∧
    (∀ h, h ∉ freq_run ops → unregister_freqconv_change (freq_run ops) h = freq_run ops) ∧
    (∀ h, h ∉ freq_run ops →
      register_freqconv_change true (freq_run ops) h = freq_run ops ++ [h] ∧
      register_freqconv_change false (freq_run ops) h = freq_run ops) ∧
    (∀ h, unregister_freqconv_change (freq_run ops) h = (freq_run ops).erase h) ∧
    (∀ cmd : freqconv_cmd, cmd.cmd_type = PS_FREQ_CMD →
      freqconv_donotify (some cmd) (freq_run ops)
        = ((freq_run ops).filter (fun h => decide (h ≠ NULL_HANDLER))).map
            (fun h => (h, cmd.freq, cmd.suspended))) ∧
    (∀ (cmd : freqconv_cmd) (h : Nat), cmd.cmd_type = PS_FREQ_CMD → h ∈ freq_run ops →
      h ≠ NULL_HANDLER →
      (freqconv_donotify (some cmd) (freq_run ops)).count (h, cmd.freq, cmd.suspended) = 1) := by
  have hnd : (freq_run ops).Nodup := freq_fold_nodup ops [] List.nodup_nil
  refine ⟨hnd, fun h => List.nodup_iff_count_le_one.mp hnd h, ?_, ?_, ?_, ?_, ?_, ?_⟩
  · intro h hm alloc_ok
    unfold register_freqconv_change
    rw [if_pos ((find_handler_iff _ h).mpr hm)]
  · intro h hm
    unfold unregister_freqconv_change
    rw [if_neg (fun hf => hm ((find_handler_iff _ h).mp hf))]
  · intro h hm
    have hf : ¬ find_handler (freq_run ops) h = true :=
      fun hf => hm ((find_handler_iff _ h).mp hf)
    unfold register_freqconv_change
    rw [if_neg hf]
    exact ⟨by simp, by simp⟩
  · intro h
    unfold unregister_freqconv_change
    by_cases hm : h ∈ freq_run ops
    · rw [if_pos ((find_handler_iff _ h).mpr hm), del_handler_eq_erase]
    · rw [if_neg (fun hf => hm ((find_handler_iff _ h).mp hf)), List.erase_of_not_mem hm]
  · intro cmd hc
    unfold freqconv_donotify
    simp only [hc, if_true]
    exact notify_handlers_eq _ _ _
  · intro cmd h hc hm hh
    unfold freqconv_donotify
    simp only [hc, if_true]
    rw [notify_handlers_count _ _ _ h hh]
    exact List.count_eq_one_of_mem hnd hm

theorem freqconv_handlers_invariant_witness :
    register_freqconv_change true (freq_run demo_freq_ops) 7 = freq_run demo_freq_ops ∧
    unregister_freqconv_change (freq_run demo_freq_ops) 3 = freq_run demo_freq_ops ∧
    (register_freqconv_change true (freq_run demo_freq_ops) 9 = freq_run demo_freq_ops ++ [9] ∧
      register_freqconv_change false (freq_run demo_freq_ops) 9 = freq_run demo_freq_ops) ∧
    freqconv_donotify (some demo_freq_cmd) (freq_run demo_freq_ops)
      = ((freq_run demo_freq_ops).filter (fun h => decide (h ≠ NULL_HANDLER))).map
          (fun h => (h, demo_freq_cmd.freq, demo_freq_cmd.suspended)) ∧
    (freqconv_donotify (some demo_freq_cmd) (freq_run demo_freq_ops)).count
      (5, demo_freq_cmd.freq, demo_freq_cmd.suspended) = 1 :=
  ⟨(freqconv_handlers_invariant demo_freq_ops).2.2.1 7 (by decide) true,
    (freqconv_handlers_invariant demo_freq_ops).2.2.2.1 3 (by decide),
    (freqconv_handlers_invariant demo_freq_ops).2.2.2.2.1 9 (by decide),
    (freqconv_handlers_invariant demo_freq_ops).2.2.2.2.2.2.1 demo_freq_cmd (by decide),
    (freqconv_handlers_invariant demo_freq_ops).2.2.2.2.2.2.2 demo_freq_cmd 5 (by decide)
      (by decide) (by decide)⟩

end Topology
